import Mathlib


/-!
Verification of the x86 instruction decoder of the CLK emulator
(`src/InstructionSets/x86/Decoder.cpp`).

The decoder is a resumable byte-stream state machine: `decode` consumes bytes
from a caller-supplied buffer, suspends when the buffer is exhausted, and posts
one structured `Instruction` (or an `Undefined` rejection) per completed parse.

Embedding conventions:
* the `uint8_t` byte stream is embedded as `List Nat`; each read site reduces
  the byte `% 256`, exactly the value range a `uint8_t` pointer can deliver;
* the `uint64_t` accumulator `inward_data_` is a `Nat` with explicit `% 2 ^ 64`
  at the truncating left shifts;
* `int8_t` / `int16_t` reinterpretation of displacements is made explicit via
  `toInt8` / `toInt16`;
* the C++ `decode` advances a `source` pointer; here `decode` returns the
  unconsumed suffix of the buffer explicitly.

The fields and member functions of `Decoder.hpp` (not present in `src/`) are
modelled from the spec where needed; each such definition is marked
`Modelled from the spec:` in its doc comment.  Everything else is translated
from `Decoder.cpp`.
-/

namespace InstructionSet

namespace x86

/-- Processor generations gating opcode availability (spec section 6). -/
inductive Model where
  | i8086
  | i80186
  | i80286
  | i80386
deriving DecidableEq, Repr

/-- Numeric generation index, used for the `model < Model::x` comparisons of
the source (`if constexpr (model < Model::i80286)` etc.). -/
def Model.gen : Model → Nat
  | .i8086 => 0
  | .i80186 => 1
  | .i80286 => 2
  | .i80386 => 3

/-- Operation mnemonics referenced by `Decoder.cpp`.  Modelled from the spec:
the enumeration itself lives in the absent `Decoder.hpp`; `Undefined` is the
spec's sentinel carried by a default-constructed `InstructionT()`, while
`Invalid` is the placeholder the source assigns before group decoding. -/
inductive Operation where
  | Undefined
  | Invalid
  | ADD | OR | ADC | SBB | AND | SUB | XOR | CMP
  | PUSH | POP | DAA | DAS | AAA | AAS | INC | DEC
  | PUSHA | POPA | BOUND | ARPL | INS | OUTS
  | JO | JNO | JB | JNB | JE | JNE | JBE | JNBE
  | JS | JNS | JP | JNP | JL | JNL | JLE | JNLE
  | TEST | XCHG | MOV | LEA | NOP | CBW | CWD
  | CALLF | WAIT | PUSHF | POPF | SAHF | LAHF
  | MOVS | CMPS | STOS | LODS | SCAS
  | RETN | RETF | LES | LDS | ENTER | LEAVE
  | INT3 | INT | INTO | IRET
  | ROL | ROR | RCL | RCR | SAL | SHR | SAR
  | AAM | AAD | XLAT | ESC
  | LOOPNE | LOOPE | LOOP | JPCX
  | IN | OUT | CALLD | JMPN | JMPF
  | HLT | CMC | CLC | STC | CLI | STI | CLD | STD
  | CALLN | NOT | NEG | MUL | IMUL | DIV | IDIV
  | SLDT | STR | LLDT | LTR | VERR | VERW
  | SGDT | LGDT | SMSW | LMSW | LAR | LSL | LOADALL | CLTS
deriving DecidableEq, Repr

/-- Operand locations.  Modelled from the spec: the enumeration lives in the
absent `Decoder.hpp`; the constructors are exactly those named by
`Decoder.cpp` plus the spec's closed set (registers by width, segment
registers, `Immediate`, `DirectAddress`, `Indirect`, `None`).  `eAX` is listed
first so that the zero row of the source's value-initialised
`reg_table[3][8]` denotes it. -/
inductive Source where
  | eAX | eCX | eDX | eBX | eSP | eBP | eSI | eDI
  | AH | CH | DH | BH
  | ES | CS | SS | DS
  | DirectAddress
  | Immediate
  | Indirect
  | None
deriving DecidableEq, Repr

/-- String-instruction repetition prefixes. -/
inductive Repetition where
  | None
  | RepE
  | RepNE
deriving DecidableEq, Repr

/-- Effective-address descriptor: scale, index register, base register,
in the constructor-argument order used by `Decoder.cpp`'s `rm_table`. -/
structure ScaleIndexBase where
  scale : Nat
  index : Source
  base : Source
deriving DecidableEq, Repr

/-- Modelled from the spec: construction of a `ScaleIndexBase` from a raw SIB
byte (the converting constructor lives in the absent `Decoder.hpp`; the spec
leaves the 386 scaled-index form undetailed and the block using it is dead
code, see the phase-reachability theorem).  Fields are read as
`scale = b >> 6`, `index = (b >> 3) & 7`, `base = b & 7` over the word
register file. -/
def ScaleIndexBase.ofByte (b : Nat) : ScaleIndexBase :=
  { scale := b >>> 6,
    index := match (b >>> 3) &&& 7 with
      | 0 => Source.eAX | 1 => Source.eCX | 2 => Source.eDX | 3 => Source.eBX
      | 4 => Source.eSP | 5 => Source.eBP | 6 => Source.eSI | _ => Source.eDI,
    base := match b &&& 7 with
      | 0 => Source.eAX | 1 => Source.eCX | 2 => Source.eDX | 3 => Source.eBX
      | 4 => Source.eSP | 5 => Source.eBP | 6 => Source.eSI | _ => Source.eDI }

/-- The immutable decoded-instruction value, with the fields in the order of
the `InstructionT` constructor call at the completion point of `decode`. -/
structure Instruction where
  operation : Operation
  source : Source
  destination : Source
  sib : ScaleIndexBase
  lock : Bool
  address_size : Nat
  segment_override : Source
  repetition : Repetition
  size : Nat
  displacement : Int
  operand : Nat
deriving DecidableEq, Repr

/-- Modelled from the spec: a default-constructed `InstructionT()` — the
sentinel returned with every rejection or not-done-yet result — has the
`Undefined` operation and all other fields cleared. -/
def Instruction.empty : Instruction :=
  { operation := Operation.Undefined,
    source := Source.None,
    destination := Source.None,
    sib := { scale := 0, index := Source.None, base := Source.None },
    lock := false,
    address_size := 0,
    segment_override := Source.None,
    repetition := Repetition.None,
    size := 0,
    displacement := 0,
    operand := 0 }

/-- Which group-decode interpretation applies to a pending ModRegRM byte. -/
inductive ModRegRMFormat where
  | MemReg_Reg
  | Reg_MemReg
  | SegReg
  | MemRegTEST_to_IDIV
  | MemRegROL_to_SAR
  | MemRegINC_DEC
  | MemRegINC_to_PUSH
  | MemRegPOP
  | MemRegMOV
  | MemRegADD_to_CMP
  | MemRegADC_to_CMP
  | MemRegSLDT_to_VERW
  | MemRegSGDT_to_LMSW
deriving DecidableEq, Repr

/-- The phases of the decoder state machine, as in the source. -/
inductive Phase where
  | Instruction
  | InstructionPageF
  | ModRegRM
  | ScaleIndexBase
  | DisplacementOrOperand
  | ReadyToPost
deriving DecidableEq, Repr

/-- The mutable decoder state: every `..._` member of `Decoder<model>` that
`Decoder.cpp` reads or writes. -/
structure DState where
  phase : Phase
  instr : Nat
  operation : Operation
  source : Source
  destination : Source
  sib : ScaleIndexBase
  lock : Bool
  address_size : Nat
  segment_override : Source
  repetition : Repetition
  operation_size : Nat
  operand_size : Nat
  displacement_size : Nat
  modregrm_format : ModRegRMFormat
  displacement : Int
  operand : Nat
  inward_data : Nat
  operand_bytes : Nat
  consumed : Nat
deriving DecidableEq, Repr

/-- Modelled from the spec: the initial `DecoderState` (member initialisers
live in the absent `Decoder.hpp`).  Per spec section 3/4.4 all prefix and
tentative fields start cleared and the phase starts at `Instruction`. -/
def initialState : DState :=
  { phase := Phase.Instruction,
    instr := 0,
    operation := Operation.Undefined,
    source := Source.None,
    destination := Source.None,
    sib := { scale := 0, index := Source.None, base := Source.None },
    lock := false,
    address_size := 0,
    segment_override := Source.None,
    repetition := Repetition.None,
    operation_size := 0,
    operand_size := 0,
    displacement_size := 0,
    modregrm_format := ModRegRMFormat.MemReg_Reg,
    displacement := 0,
    operand := 0,
    inward_data := 0,
    operand_bytes := 0,
    consumed := 0 }

/-- Modelled from the spec: `reset_parsing()` (defined in the absent
`Decoder.hpp`) performs the "unconditional state reset (all prefix and
tentative fields cleared)" of spec section 4.4, returning the decoder to its
initial phase. -/
def reset_parsing (_ : DState) : DState := initialState

/-! Helper functions mirroring the macros at the top of `decode`. -/

/-- The `SetOpSrcDestSize` macro. -/
def setOpSrcDestSize (s : DState) (op : Operation) (src dest : Source) (size : Nat) : DState :=
  { s with operation := op, source := src, destination := dest, operation_size := size }

/-- The `Complete` macro. -/
def completeOp (s : DState) (op : Operation) (src dest : Source) (size : Nat) : DState :=
  { setOpSrcDestSize s op src dest size with phase := Phase.ReadyToPost }

/-- The `RegData` macro. -/
def regData (s : DState) (op : Operation) (dest : Source) (size : Nat) : DState :=
  { setOpSrcDestSize s op Source.DirectAddress dest size with
      source := Source.Immediate, operand_size := size,
      phase := Phase.DisplacementOrOperand }

/-- The `RegAddr` macro. -/
def regAddr (s : DState) (op : Operation) (dest : Source) (opSize addrSize : Nat) : DState :=
  { setOpSrcDestSize s op Source.DirectAddress dest opSize with
      operand_size := addrSize, phase := Phase.DisplacementOrOperand }

/-- The `AddrReg` macro. -/
def addrReg (s : DState) (op : Operation) (src : Source) (opSize addrSize : Nat) : DState :=
  { setOpSrcDestSize s op src Source.DirectAddress opSize with
      operand_size := addrSize, destination := Source.DirectAddress,
      phase := Phase.DisplacementOrOperand }

/-- The `MemRegReg` macro. -/
def memRegReg (s : DState) (op : Operation) (fmt : ModRegRMFormat) (size : Nat) : DState :=
  { s with operation := op, phase := Phase.ModRegRM, modregrm_format := fmt,
           operand_size := 0, operation_size := size }

/-- The `Jump` macro. -/
def jumpOp (s : DState) (op : Operation) : DState :=
  { s with operation := op, phase := Phase.DisplacementOrOperand, displacement_size := 1 }

/-- The `Far` macro. -/
def farOp (s : DState) (op : Operation) : DState :=
  { s with operation := op, phase := Phase.DisplacementOrOperand, operand_size := 4 }

/-- The `Displacement16Operand8` macro. -/
def displacement16Operand8 (s : DState) (op : Operation) : DState :=
  { s with operation := op, phase := Phase.DisplacementOrOperand,
           displacement_size := 2, operand_size := 1 }

/-- Result of examining one opcode-phase byte: either an early return from
`decode` (the `undefined()` macro) or an updated state falling through. -/
inductive StepRes where
  | ret : Int × Instruction → DState → StepRes
  | next : DState → StepRes
deriving DecidableEq, Repr

/-- The `undefined()` macro: return the bytes consumed so far with a
default-constructed instruction and reset. -/
def undefinedRet (s : DState) : StepRes :=
  StepRes.ret (Int.ofNat s.consumed, Instruction.empty) (reset_parsing s)

/-- The `if constexpr (model < minModel) undefined();` pattern guarding
model-gated opcodes. -/
def requireModel (m minModel : Model) (s : DState) (k : DState → StepRes) : StepRes :=
  if m.gen < minModel.gen then undefinedRet s else k s

set_option maxHeartbeats 1600000

/-- One decode action of the opcode switch of `Phase::Instruction`: each
constructor names the macro (or inline statement sequence) that the matching
`case` of the source invokes; `undefined` is the `default: undefined()` arm,
`setSeg`/`setLock`/`setRep` are the prefix assignments, `pageF` is the
`0x0f` escape, and `rolSarImm`/`rolSarCL` are the inline `0xd0`-`0xd3`
bodies. -/
inductive Act where
  | undefined
  | complete (op : Operation) (src dest : Source) (size : Nat)
  | regData (op : Operation) (dest : Source) (size : Nat)
  | regAddr (op : Operation) (dest : Source) (opSize addrSize : Nat)
  | addrReg (op : Operation) (src : Source) (opSize addrSize : Nat)
  | memRegReg (op : Operation) (fmt : ModRegRMFormat) (size : Nat)
  | jump (op : Operation)
  | far (op : Operation)
  | d16o8 (op : Operation)
  | setSeg (seg : Source)
  | setLock
  | setRep (r : Repetition)
  | pageF
  | rolSarImm (size : Nat)
  | rolSarCL (size : Nat)
deriving DecidableEq, Repr

/-- The `if constexpr (model < minModel) undefined();` guard that prefixes the
model-gated cases, in table form. -/
def requireAct (m minModel : Model) (a : Act) : Act :=
  if m.gen < minModel.gen then Act.undefined else a

def armRow0 (m : Model) (b : Nat) : Act :=
  match b with
  | 0x00 => Act.memRegReg .ADD .MemReg_Reg 1
  | 0x01 => Act.memRegReg .ADD .MemReg_Reg 2
  | 0x02 => Act.memRegReg .ADD .Reg_MemReg 1
  | 0x03 => Act.memRegReg .ADD .Reg_MemReg 2
  | 0x04 => Act.regData .ADD .eAX 1
  | 0x05 => Act.regData .ADD .eAX 2
  | 0x06 => Act.complete .PUSH .ES .None 2
  | 0x07 => Act.complete .POP .None .ES 2
  | 0x08 => Act.memRegReg .OR .MemReg_Reg 1
  | 0x09 => Act.memRegReg .OR .MemReg_Reg 2
  | 0x0a => Act.memRegReg .OR .Reg_MemReg 1
  | 0x0b => Act.memRegReg .OR .Reg_MemReg 2
  | 0x0c => Act.regData .OR .eAX 1
  | 0x0d => Act.regData .OR .eAX 2
  | 0x0e => Act.complete .PUSH .CS .None 2
  | 0x0f => requireAct m .i80286 Act.pageF
  | _ => Act.undefined

def armRow1 (_m : Model) (b : Nat) : Act :=
  match b with
  | 0x10 => Act.memRegReg .ADC .MemReg_Reg 1
  | 0x11 => Act.memRegReg .ADC .MemReg_Reg 2
  | 0x12 => Act.memRegReg .ADC .Reg_MemReg 1
  | 0x13 => Act.memRegReg .ADC .Reg_MemReg 2
  | 0x14 => Act.regData .ADC .eAX 1
  | 0x15 => Act.regData .ADC .eAX 2
  | 0x16 => Act.complete .PUSH .SS .None 2
  | 0x17 => Act.complete .POP .None .SS 2
  | 0x18 => Act.memRegReg .SBB .MemReg_Reg 1
  | 0x19 => Act.memRegReg .SBB .MemReg_Reg 2
  | 0x1a => Act.memRegReg .SBB .Reg_MemReg 1
  | 0x1b => Act.memRegReg .SBB .Reg_MemReg 2
  | 0x1c => Act.regData .SBB .eAX 1
  | 0x1d => Act.regData .SBB .eAX 2
  | 0x1e => Act.complete .PUSH .DS .None 2
  | 0x1f => Act.complete .POP .None .DS 2
  | _ => Act.undefined

def armRow2 (_m : Model) (b : Nat) : Act :=
  match b with
  | 0x20 => Act.memRegReg .AND .MemReg_Reg 1
  | 0x21 => Act.memRegReg .AND .MemReg_Reg 2
  | 0x22 => Act.memRegReg .AND .Reg_MemReg 1
  | 0x23 => Act.memRegReg .AND .Reg_MemReg 2
  | 0x24 => Act.regData .AND .eAX 1
  | 0x25 => Act.regData .AND .eAX 2
  | 0x26 => Act.setSeg Source.ES
  | 0x27 => Act.complete .DAA .eAX .eAX 1
  | 0x28 => Act.memRegReg .SUB .MemReg_Reg 1
  | 0x29 => Act.memRegReg .SUB .MemReg_Reg 2
  | 0x2a => Act.memRegReg .SUB .Reg_MemReg 1
  | 0x2b => Act.memRegReg .SUB .Reg_MemReg 2
  | 0x2c => Act.regData .SUB .eAX 1
  | 0x2d => Act.regData .SUB .eAX 2
  | 0x2e => Act.setSeg Source.CS
  | 0x2f => Act.complete .DAS .eAX .eAX 1
  | _ => Act.undefined

def armRow3 (_m : Model) (b : Nat) : Act :=
  match b with
  | 0x30 => Act.memRegReg .XOR .MemReg_Reg 1
  | 0x31 => Act.memRegReg .XOR .MemReg_Reg 2
  | 0x32 => Act.memRegReg .XOR .Reg_MemReg 1
  | 0x33 => Act.memRegReg .XOR .Reg_MemReg 2
  | 0x34 => Act.regData .XOR .eAX 1
  | 0x35 => Act.regData .XOR .eAX 2
  | 0x36 => Act.setSeg Source.SS
  | 0x37 => Act.complete .AAA .eAX .eAX 2
  | 0x38 => Act.memRegReg .CMP .MemReg_Reg 1
  | 0x39 => Act.memRegReg .CMP .MemReg_Reg 2
  | 0x3a => Act.memRegReg .CMP .Reg_MemReg 1
  | 0x3b => Act.memRegReg .CMP .Reg_MemReg 2
  | 0x3c => Act.regData .CMP .eAX 1
  | 0x3d => Act.regData .CMP .eAX 2
  | 0x3e => Act.setSeg Source.DS
  | 0x3f => Act.complete .AAS .eAX .eAX 2
  | _ => Act.undefined

def armRow4 (_m : Model) (b : Nat) : Act :=
  match b with
  | 0x40 => Act.complete .INC .eAX .eAX 2
  | 0x41 => Act.complete .INC .eCX .eCX 2
  | 0x42 => Act.complete .INC .eDX .eDX 2
  | 0x43 => Act.complete .INC .eBX .eBX 2
  | 0x44 => Act.complete .INC .eSP .eSP 2
  | 0x45 => Act.complete .INC .eBP .eBP 2
  | 0x46 => Act.complete .INC .eSI .eSI 2
  | 0x47 => Act.complete .INC .eDI .eDI 2
  | 0x48 => Act.complete .DEC .eAX .eAX 2
  | 0x49 => Act.complete .DEC .eCX .eCX 2
  | 0x4a => Act.complete .DEC .eDX .eDX 2
  | 0x4b => Act.complete .DEC .eBX .eBX 2
  | 0x4c => Act.complete .DEC .eSP .eSP 2
  | 0x4d => Act.complete .DEC .eBP .eBP 2
  | 0x4e => Act.complete .DEC .eSI .eSI 2
  | 0x4f => Act.complete .DEC .eDI .eDI 2
  | _ => Act.undefined

def armRow5 (_m : Model) (b : Nat) : Act :=
  match b with
  | 0x50 => Act.complete .PUSH .eAX .eAX 2
  | 0x51 => Act.complete .PUSH .eCX .eCX 2
  | 0x52 => Act.complete .PUSH .eDX .eDX 2
  | 0x53 => Act.complete .PUSH .eBX .eBX 2
  | 0x54 => Act.complete .PUSH .eSP .eSP 2
  | 0x55 => Act.complete .PUSH .eBP .eBP 2
  | 0x56 => Act.complete .PUSH .eSI .eSI 2
  | 0x57 => Act.complete .PUSH .eDI .eDI 2
  | 0x58 => Act.complete .POP .eAX .eAX 2
  | 0x59 => Act.complete .POP .eCX .eCX 2
  | 0x5a => Act.complete .POP .eDX .eDX 2
  | 0x5b => Act.complete .POP .eBX .eBX 2
  | 0x5c => Act.complete .POP .eSP .eSP 2
  | 0x5d => Act.complete .POP .eBP .eBP 2
  | 0x5e => Act.complete .POP .eSI .eSI 2
  | 0x5f => Act.complete .POP .eDI .eDI 2
  | _ => Act.undefined

def armRow6 (m : Model) (b : Nat) : Act :=
  match b with
  | 0x60 => requireAct m .i80186 (Act.complete .PUSHA .None .None 2)
  | 0x61 => requireAct m .i80186 (Act.complete .POPA .None .None 2)
  | 0x62 => requireAct m .i80186 (Act.memRegReg .BOUND .Reg_MemReg 2)
  | 0x63 => requireAct m .i80286 (Act.memRegReg .ARPL .MemReg_Reg 2)
  | 0x6c => requireAct m .i80186 (Act.complete .INS .None .None 1)
  | 0x6d => requireAct m .i80186 (Act.complete .INS .None .None 2)
  | 0x6e => requireAct m .i80186 (Act.complete .OUTS .None .None 1)
  | 0x6f => requireAct m .i80186 (Act.complete .OUTS .None .None 2)
  | _ => Act.undefined

def armRow7 (_m : Model) (b : Nat) : Act :=
  match b with
  | 0x70 => Act.jump .JO
  | 0x71 => Act.jump .JNO
  | 0x72 => Act.jump .JB
  | 0x73 => Act.jump .JNB
  | 0x74 => Act.jump .JE
  | 0x75 => Act.jump .JNE
  | 0x76 => Act.jump .JBE
  | 0x77 => Act.jump .JNBE
  | 0x78 => Act.jump .JS
  | 0x79 => Act.jump .JNS
  | 0x7a => Act.jump .JP
  | 0x7b => Act.jump .JNP
  | 0x7c => Act.jump .JL
  | 0x7d => Act.jump .JNL
  | 0x7e => Act.jump .JLE
  | 0x7f => Act.jump .JNLE
  | _ => Act.undefined

def armRow8 (_m : Model) (b : Nat) : Act :=
  match b with
  | 0x80 => Act.memRegReg .Invalid .MemRegADD_to_CMP 1
  | 0x81 => Act.memRegReg .Invalid .MemRegADD_to_CMP 2
  | 0x82 => Act.memRegReg .Invalid .MemRegADC_to_CMP 1
  | 0x83 => Act.memRegReg .Invalid .MemRegADC_to_CMP 2
  | 0x84 => Act.memRegReg .TEST .MemReg_Reg 1
  | 0x85 => Act.memRegReg .TEST .MemReg_Reg 2
  | 0x86 => Act.memRegReg .XCHG .Reg_MemReg 1
  | 0x87 => Act.memRegReg .XCHG .Reg_MemReg 2
  | 0x88 => Act.memRegReg .MOV .MemReg_Reg 1
  | 0x89 => Act.memRegReg .MOV .MemReg_Reg 2
  | 0x8a => Act.memRegReg .MOV .Reg_MemReg 1
  | 0x8b => Act.memRegReg .MOV .Reg_MemReg 2
  | 0x8d => Act.memRegReg .LEA .Reg_MemReg 2
  | 0x8e => Act.memRegReg .MOV .SegReg 2
  | 0x8f => Act.memRegReg .POP .MemRegPOP 2
  | _ => Act.undefined

def armRow9 (_m : Model) (b : Nat) : Act :=
  match b with
  | 0x90 => Act.complete .NOP .None .None 0
  | 0x91 => Act.complete .XCHG .eAX .eCX 2
  | 0x92 => Act.complete .XCHG .eAX .eDX 2
  | 0x93 => Act.complete .XCHG .eAX .eBX 2
  | 0x94 => Act.complete .XCHG .eAX .eSP 2
  | 0x95 => Act.complete .XCHG .eAX .eBP 2
  | 0x96 => Act.complete .XCHG .eAX .eSI 2
  | 0x97 => Act.complete .XCHG .eAX .eDI 2
  | 0x98 => Act.complete .CBW .eAX .AH 1
  | 0x99 => Act.complete .CWD .eAX .eDX 2
  | 0x9a => Act.far .CALLF
  | 0x9b => Act.complete .WAIT .None .None 0
  | 0x9c => Act.complete .PUSHF .None .None 2
  | 0x9d => Act.complete .POPF .None .None 2
  | 0x9e => Act.complete .SAHF .None .None 1
  | 0x9f => Act.complete .LAHF .None .None 1
  | _ => Act.undefined

def armRowa (_m : Model) (b : Nat) : Act :=
  match b with
  | 0xa0 => Act.regAddr .MOV .eAX 1 1
  | 0xa1 => Act.regAddr .MOV .eAX 2 2
  | 0xa2 => Act.addrReg .MOV .eAX 1 1
  | 0xa3 => Act.addrReg .MOV .eAX 2 2
  | 0xa4 => Act.complete .MOVS .None .None 1
  | 0xa5 => Act.complete .MOVS .None .None 2
  | 0xa6 => Act.complete .CMPS .None .None 1
  | 0xa7 => Act.complete .CMPS .None .None 2
  | 0xa8 => Act.regData .TEST .eAX 1
  | 0xa9 => Act.regData .TEST .eAX 2
  | 0xaa => Act.complete .STOS .None .None 1
  | 0xab => Act.complete .STOS .None .None 2
  | 0xac => Act.complete .LODS .None .None 1
  | 0xad => Act.complete .LODS .None .None 2
  | 0xae => Act.complete .SCAS .None .None 1
  | 0xaf => Act.complete .SCAS .None .None 2
  | _ => Act.undefined

def armRowb (_m : Model) (b : Nat) : Act :=
  match b with
  | 0xb0 => Act.regData .MOV .eAX 1
  | 0xb1 => Act.regData .MOV .eCX 1
  | 0xb2 => Act.regData .MOV .eDX 1
  | 0xb3 => Act.regData .MOV .eBX 1
  | 0xb4 => Act.regData .MOV .AH 1
  | 0xb5 => Act.regData .MOV .CH 1
  | 0xb6 => Act.regData .MOV .DH 1
  | 0xb7 => Act.regData .MOV .BH 1
  | 0xb8 => Act.regData .MOV .eAX 2
  | 0xb9 => Act.regData .MOV .eCX 2
  | 0xba => Act.regData .MOV .eDX 2
  | 0xbb => Act.regData .MOV .eBX 2
  | 0xbc => Act.regData .MOV .eSP 2
  | 0xbd => Act.regData .MOV .eBP 2
  | 0xbe => Act.regData .MOV .eSI 2
  | 0xbf => Act.regData .MOV .eDI 2
  | _ => Act.undefined

def armRowc (m : Model) (b : Nat) : Act :=
  match b with
  | 0xc2 => Act.regData .RETN .None 2
  | 0xc3 => Act.complete .RETN .None .None 2
  | 0xc4 => Act.memRegReg .LES .Reg_MemReg 2
  | 0xc5 => Act.memRegReg .LDS .Reg_MemReg 2
  | 0xc6 => Act.memRegReg .MOV .MemRegMOV 1
  | 0xc7 => Act.memRegReg .MOV .MemRegMOV 2
  | 0xc8 => requireAct m .i80186 (Act.d16o8 .ENTER)
  | 0xc9 => requireAct m .i80186 (Act.complete .LEAVE .None .None 0)
  | 0xca => Act.regData .RETF .None 2
  | 0xcb => Act.complete .RETF .None .None 4
  | 0xcc => Act.complete .INT3 .None .None 0
  | 0xcd => Act.regData .INT .None 1
  | 0xce => Act.complete .INTO .None .None 0
  | 0xcf => Act.complete .IRET .None .None 0
  | _ => Act.undefined

def armRowd (_m : Model) (b : Nat) : Act :=
  match b with
  | 0xd0 => Act.rolSarImm (1 + (0xd0 &&& 1))
  | 0xd1 => Act.rolSarImm (1 + (0xd1 &&& 1))
  | 0xd2 => Act.rolSarCL (1 + (0xd2 &&& 1))
  | 0xd3 => Act.rolSarCL (1 + (0xd3 &&& 1))
  | 0xd4 => Act.regData .AAM .eAX 1
  | 0xd5 => Act.regData .AAD .eAX 1
  | 0xd7 => Act.complete .XLAT .None .None 1
  | 0xd8 => Act.memRegReg .ESC .MemReg_Reg 0
  | 0xd9 => Act.memRegReg .ESC .MemReg_Reg 0
  | 0xda => Act.memRegReg .ESC .MemReg_Reg 0
  | 0xdb => Act.memRegReg .ESC .MemReg_Reg 0
  | 0xdc => Act.memRegReg .ESC .MemReg_Reg 0
  | 0xdd => Act.memRegReg .ESC .MemReg_Reg 0
  | 0xde => Act.memRegReg .ESC .MemReg_Reg 0
  | 0xdf => Act.memRegReg .ESC .MemReg_Reg 0
  | _ => Act.undefined

def armRowe (_m : Model) (b : Nat) : Act :=
  match b with
  | 0xe0 => Act.jump .LOOPNE
  | 0xe1 => Act.jump .LOOPE
  | 0xe2 => Act.jump .LOOP
  | 0xe3 => Act.jump .JPCX
  | 0xe4 => Act.regAddr .IN .eAX 1 1
  | 0xe5 => Act.regAddr .IN .eAX 2 1
  | 0xe6 => Act.addrReg .OUT .eAX 1 1
  | 0xe7 => Act.addrReg .OUT .eAX 2 1
  | 0xe8 => Act.regData .CALLD .None 2
  | 0xe9 => Act.regData .JMPN .None 2
  | 0xea => Act.far .JMPF
  | 0xeb => Act.jump .JMPN
  | 0xec => Act.complete .IN .eDX .eAX 1
  | 0xed => Act.complete .IN .eDX .eAX 1
  | 0xee => Act.complete .OUT .eAX .eDX 1
  | 0xef => Act.complete .OUT .eAX .eDX 2
  | _ => Act.undefined

def armRowf (_m : Model) (b : Nat) : Act :=
  match b with
  | 0xf0 => Act.setLock
  | 0xf2 => Act.setRep Repetition.RepNE
  | 0xf3 => Act.setRep Repetition.RepE
  | 0xf4 => Act.complete .HLT .None .None 1
  | 0xf5 => Act.complete .CMC .None .None 1
  | 0xf6 => Act.memRegReg .Invalid .MemRegTEST_to_IDIV 1
  | 0xf7 => Act.memRegReg .Invalid .MemRegTEST_to_IDIV 2
  | 0xf8 => Act.complete .CLC .None .None 1
  | 0xf9 => Act.complete .STC .None .None 1
  | 0xfa => Act.complete .CLI .None .None 1
  | 0xfb => Act.complete .STI .None .None 1
  | 0xfc => Act.complete .CLD .None .None 1
  | 0xfd => Act.complete .STD .None .None 1
  | 0xfe => Act.memRegReg .Invalid .MemRegINC_DEC 1
  | 0xff => Act.memRegReg .Invalid .MemRegINC_to_PUSH 1
  | _ => Act.undefined

/-- The opcode dispatch switch as a table: `armAct m b` is the action the
`switch(instr_)` of `Phase::Instruction` performs for opcode byte `b` under
model `m` (spec section 9 prescribes this declarative-table reading of the
macro-stamped switch).  The table is laid out as the 16 rows of the opcode
map, one helper per high nibble; each row arm carries the original full
opcode byte of its `case` label, and every unlisted byte is the
`default: undefined()` arm.  The `PartialBlock` and `RegisterBlock` macro
expansions are written out case by case. -/
def armAct (m : Model) (b : Nat) : Act :=
  match b >>> 4 with
  | 0x0 => armRow0 m b
  | 0x1 => armRow1 m b
  | 0x2 => armRow2 m b
  | 0x3 => armRow3 m b
  | 0x4 => armRow4 m b
  | 0x5 => armRow5 m b
  | 0x6 => armRow6 m b
  | 0x7 => armRow7 m b
  | 0x8 => armRow8 m b
  | 0x9 => armRow9 m b
  | 0xa => armRowa m b
  | 0xb => armRowb m b
  | 0xc => armRowc m b
  | 0xd => armRowd m b
  | 0xe => armRowe m b
  | 0xf => armRowf m b
  | _ => Act.undefined

/-- Interpret one `Act` on the current state: each branch is the body of the
corresponding macro or inline `case` statement of the source. -/
def applyAct (s : DState) : Act → StepRes
  | Act.undefined => undefinedRet s
  | Act.complete op src dest size => StepRes.next (completeOp s op src dest size)
  | Act.regData op dest size => StepRes.next (regData s op dest size)
  | Act.regAddr op dest opSize addrSize => StepRes.next (regAddr s op dest opSize addrSize)
  | Act.addrReg op src opSize addrSize => StepRes.next (addrReg s op src opSize addrSize)
  | Act.memRegReg op fmt size => StepRes.next (memRegReg s op fmt size)
  | Act.jump op => StepRes.next (jumpOp s op)
  | Act.far op => StepRes.next (farOp s op)
  | Act.d16o8 op => StepRes.next (displacement16Operand8 s op)
  | Act.setSeg seg => StepRes.next { s with segment_override := seg }
  | Act.setLock => StepRes.next { s with lock := true }
  | Act.setRep r => StepRes.next { s with repetition := r }
  | Act.pageF => StepRes.next { s with phase := Phase.InstructionPageF }
  | Act.rolSarImm size => StepRes.next { s with
      phase := Phase.ModRegRM,
      modregrm_format := ModRegRMFormat.MemRegROL_to_SAR,
      operation_size := size, source := Source.Immediate, operand := 1 }
  | Act.rolSarCL size => StepRes.next { s with
      phase := Phase.ModRegRM,
      modregrm_format := ModRegRMFormat.MemRegROL_to_SAR,
      operation_size := size, source := Source.eCX }

/-- The opcode switch: dispatch the byte through the table. -/
def instructionArm (m : Model) (s : DState) (b : Nat) : StepRes :=
  applyAct s (armAct m b)

/-- One iteration of the `Phase::Instruction` loop body: record the
instruction byte, count it, and dispatch on it. -/
def instructionStep (m : Model) (s : DState) (b : Nat) : StepRes :=
  instructionArm m { s with instr := b % 256, consumed := s.consumed + 1 } (b % 256)

/-- The `0x0f`-page switch.  As in the source, the scrutinee is
`instr_ = 0x0f00 | byte`, so the listed case labels `0x00`–`0x06` can never
match and every second byte falls to `default: undefined()`. -/
def pageFArm (m : Model) (s : DState) (instr : Nat) : StepRes :=
  match instr with
  | 0x00 => StepRes.next (memRegReg s .Invalid .MemRegSLDT_to_VERW 2)
  | 0x01 => StepRes.next (memRegReg s .Invalid .MemRegSGDT_to_LMSW 2)
  | 0x02 => StepRes.next (memRegReg s .LAR .Reg_MemReg 2)
  | 0x03 => StepRes.next (memRegReg s .LSL .Reg_MemReg 2)
  | 0x05 =>
      if m ≠ Model.i80286 then undefinedRet s
      else StepRes.next (completeOp s .LOADALL .None .None 0)
  | 0x06 => StepRes.next (completeOp s .CLTS .None .None 1)
  | _ => undefinedRet s

/-- One byte of `Phase::InstructionPageF`: record `instr_ = 0x0f00 | b`,
count the byte, and dispatch on `instr_`. -/
def pageFStep (m : Model) (s : DState) (b : Nat) : StepRes :=
  pageFArm m { s with instr := 0x0f00 ||| (b % 256), consumed := s.consumed + 1 }
    (0x0f00 ||| (b % 256))

/-- The source's `reg_table[3][8]`: register selected by a 3-bit field at a
given operation size.  Row 0 is value-initialised in the source, hence
denotes `Source(0) = eAX` everywhere. -/
def reg_table (size rm : Nat) : Source :=
  match size, rm with
  | 1, 0 => Source.eAX
  | 1, 1 => Source.eCX
  | 1, 2 => Source.eDX
  | 1, 3 => Source.eBX
  | 1, 4 => Source.AH
  | 1, 5 => Source.CH
  | 1, 6 => Source.DH
  | 1, 7 => Source.BH
  | 2, 0 => Source.eAX
  | 2, 1 => Source.eCX
  | 2, 2 => Source.eDX
  | 2, 3 => Source.eBX
  | 2, 4 => Source.eSP
  | 2, 5 => Source.eBP
  | 2, 6 => Source.eSI
  | 2, 7 => Source.eDI
  | _, _ => Source.eAX

/-- The source's `rm_table[8]`: the eight fixed pre-386 base/index
combinations selected by `rm` when `mod != 3`. -/
def rm_table (rm : Nat) : ScaleIndexBase :=
  match rm with
  | 0 => { scale := 0, index := Source.eBX, base := Source.eSI }
  | 1 => { scale := 0, index := Source.eBX, base := Source.eDI }
  | 2 => { scale := 0, index := Source.eBP, base := Source.eSI }
  | 3 => { scale := 0, index := Source.eBP, base := Source.eDI }
  | 4 => { scale := 0, index := Source.None, base := Source.eSI }
  | 5 => { scale := 0, index := Source.None, base := Source.eDI }
  | 6 => { scale := 0, index := Source.None, base := Source.eBP }
  | _ => { scale := 0, index := Source.None, base := Source.eBX }

/-- The source's `seg_table[4]`. -/
def seg_table (reg : Nat) : Source :=
  match reg with
  | 0 => Source.ES
  | 1 => Source.CS
  | 2 => Source.SS
  | _ => Source.DS

/-- The `switch(mod)` of the ModRegRM block: `none` encodes `undefined()`
(the register-direct `LES`/`LDS` rejection); otherwise returns the
`memreg` operand together with displacement-size and `sib_` updates. -/
def modSwitch (s : DState) (mod rm : Nat) : Option (Source × DState) :=
  if mod = 3 then
    if s.operation = Operation.LES ∨ s.operation = Operation.LDS then none
    else some (reg_table s.operation_size rm, s)
  else if mod = 0 then
    some (Source.Indirect, { s with sib := rm_table rm })
  else
    some (Source.Indirect,
      { s with displacement_size := 1 + (if mod = 2 then 1 else 0), sib := rm_table rm })

/-- The `switch(modregrm_format_)` of the ModRegRM block: `none` encodes
`undefined()` for the `reg` values with no assigned group meaning. -/
def formatSwitch (s : DState) (memreg : Source) (reg : Nat) : Option DState :=
  match s.modregrm_format with
  | ModRegRMFormat.Reg_MemReg =>
      some { s with source := memreg, destination := reg_table s.operation_size reg }
  | ModRegRMFormat.MemReg_Reg =>
      some { s with source := reg_table s.operation_size reg, destination := memreg }
  | ModRegRMFormat.MemRegTEST_to_IDIV =>
      match reg with
      | 0 => some { s with source := memreg, destination := memreg, operation := .TEST }
      | 2 => some { s with source := memreg, destination := memreg, operation := .NOT }
      | 3 => some { s with source := memreg, destination := memreg, operation := .NEG }
      | 4 => some { s with source := memreg, destination := memreg, operation := .MUL }
      | 5 => some { s with source := memreg, destination := memreg, operation := .IMUL }
      | 6 => some { s with source := memreg, destination := memreg, operation := .DIV }
      | 7 => some { s with source := memreg, destination := memreg, operation := .IDIV }
      | _ => none
  | ModRegRMFormat.SegReg =>
      if reg &&& 4 ≠ 0 then none
      else some { s with source := memreg, destination := seg_table reg }
  | ModRegRMFormat.MemRegROL_to_SAR =>
      match reg with
      | 0 => some { s with destination := memreg, operation := .ROL }
      | 2 => some { s with destination := memreg, operation := .ROR }
      | 3 => some { s with destination := memreg, operation := .RCL }
      | 4 => some { s with destination := memreg, operation := .RCR }
      | 5 => some { s with destination := memreg, operation := .SAL }
      | 6 => some { s with destination := memreg, operation := .SHR }
      | 7 => some { s with destination := memreg, operation := .SAR }
      | _ => none
  | ModRegRMFormat.MemRegINC_DEC =>
      match reg with
      | 0 => some { s with source := memreg, destination := memreg, operation := .INC }
      | 1 => some { s with source := memreg, destination := memreg, operation := .DEC }
      | _ => none
  | ModRegRMFormat.MemRegINC_to_PUSH =>
      match reg with
      | 0 => some { s with source := memreg, destination := memreg, operation := .INC }
      | 1 => some { s with source := memreg, destination := memreg, operation := .DEC }
      | 2 => some { s with source := memreg, destination := memreg, operation := .CALLN }
      | 3 => some { s with
                      source := Source.Immediate, destination := memreg,
                      operation := .CALLF, operand_size := 4 }
      | 4 => some { s with source := memreg, destination := memreg, operation := .JMPN }
      | 5 => some { s with
                      source := Source.Immediate, destination := memreg,
                      operation := .JMPF, operand_size := 4 }
      | 6 => some { s with source := memreg, destination := memreg, operation := .PUSH }
      | _ => none
  | ModRegRMFormat.MemRegPOP =>
      if reg ≠ 0 then none
      else some { s with source := memreg, destination := memreg }
  | ModRegRMFormat.MemRegMOV =>
      some { s with
               source := Source.Immediate, destination := memreg,
               operand_size := s.operation_size }
  | ModRegRMFormat.MemRegADD_to_CMP =>
      match reg with
      | 1 => some { s with
                      destination := memreg, operand_size := s.operation_size,
                      operation := .OR }
      | 2 => some { s with
                      destination := memreg, operand_size := s.operation_size,
                      operation := .ADC }
      | 3 => some { s with
                      destination := memreg, operand_size := s.operation_size,
                      operation := .SBB }
      | 4 => some { s with
                      destination := memreg, operand_size := s.operation_size,
                      operation := .AND }
      | 5 => some { s with
                      destination := memreg, operand_size := s.operation_size,
                      operation := .SUB }
      | 6 => some { s with
                      destination := memreg, operand_size := s.operation_size,
                      operation := .XOR }
      | 7 => some { s with
                      destination := memreg, operand_size := s.operation_size,
                      operation := .CMP }
      | _ => some { s with
                      destination := memreg, operand_size := s.operation_size,
                      operation := .ADD }
  | ModRegRMFormat.MemRegADC_to_CMP =>
      match reg with
      | 0 => some { s with
                      destination := memreg, source := Source.Immediate,
                      operand_size := 1, operation := .ADD }
      | 2 => some { s with
                      destination := memreg, source := Source.Immediate,
                      operand_size := 1, operation := .ADC }
      | 3 => some { s with
                      destination := memreg, source := Source.Immediate,
                      operand_size := 1, operation := .SBB }
      | 5 => some { s with
                      destination := memreg, source := Source.Immediate,
                      operand_size := 1, operation := .SUB }
      | 7 => some { s with
                      destination := memreg, source := Source.Immediate,
                      operand_size := 1, operation := .CMP }
      | _ => none
  | ModRegRMFormat.MemRegSLDT_to_VERW =>
      match reg with
      | 0 => some { s with source := memreg, destination := memreg, operation := .SLDT }
      | 1 => some { s with source := memreg, destination := memreg, operation := .STR }
      | 2 => some { s with source := memreg, destination := memreg, operation := .LLDT }
      | 3 => some { s with source := memreg, destination := memreg, operation := .LTR }
      | 4 => some { s with source := memreg, destination := memreg, operation := .VERR }
      | 5 => some { s with source := memreg, destination := memreg, operation := .VERW }
      | _ => none
  | ModRegRMFormat.MemRegSGDT_to_LMSW =>
      match reg with
      | 0 => some { s with source := memreg, destination := memreg, operation := .SGDT }
      | 2 => some { s with source := memreg, destination := memreg, operation := .LGDT }
      | 4 => some { s with source := memreg, destination := memreg, operation := .SMSW }
      | 6 => some { s with source := memreg, destination := memreg, operation := .LMSW }
      | _ => none

/-- The ModRegRM block applied to a counted byte `b < 256`: split into
`mod`/`reg`/`rm`, run the two switches, and finally advance the phase to
`DisplacementOrOperand` or `ReadyToPost` depending on whether trailing bytes
remain. -/
def modRMWith (s : DState) (b : Nat) : StepRes :=
  match modSwitch s (b >>> 6) (b &&& 7) with
  | none => undefinedRet s
  | some (memreg, s1) =>
    match formatSwitch s1 memreg ((b >>> 3) &&& 7) with
    | none => undefinedRet s1
    | some s2 => StepRes.next
        { s2 with
            phase :=
              if s2.displacement_size + s2.operand_size = 0
              then Phase.ReadyToPost else Phase.DisplacementOrOperand }

/-- One byte of `Phase::ModRegRM`: count the byte, then run the block. -/
def modRMStep (s : DState) (b : Nat) : StepRes :=
  modRMWith { s with consumed := s.consumed + 1 } (b % 256)

/-- Outcome of running the phase blocks over a buffer: either an early
`return` from `decode` carrying the result, the post-return state and the
unconsumed suffix, or fall-through to the next block. -/
inductive Flow where
  | ret : Int × Instruction → DState → List Nat → Flow
  | go : DState → List Nat → Flow
deriving DecidableEq, Repr

/-- The `while(phase_ == Phase::Instruction && source != end)` loop. -/
def instructionLoop (m : Model) : DState → List Nat → Flow
  | s, [] => Flow.go s []
  | s, b :: rest =>
    if s.phase = Phase.Instruction then
      match instructionStep m s b with
      | StepRes.ret o s' => Flow.ret o s' rest
      | StepRes.next s' => instructionLoop m s' rest
    else Flow.go s (b :: rest)

/-- The `if(phase_ == Phase::InstructionPageF && source != end)` block. -/
def pageFPhase (m : Model) (s : DState) (src : List Nat) : Flow :=
  match src with
  | [] => Flow.go s []
  | b :: rest =>
    if s.phase = Phase.InstructionPageF then
      match pageFStep m s b with
      | StepRes.ret o s' => Flow.ret o s' rest
      | StepRes.next s' => Flow.go s' rest
    else Flow.go s (b :: rest)

/-- The `if(phase_ == Phase::ModRegRM && source != end)` block. -/
def modRMPhase (s : DState) (src : List Nat) : Flow :=
  match src with
  | [] => Flow.go s []
  | b :: rest =>
    if s.phase = Phase.ModRegRM then
      match modRMStep s b with
      | StepRes.ret o s' => Flow.ret o s' rest
      | StepRes.next s' => Flow.go s' rest
    else Flow.go s (b :: rest)

/-- The `if(phase_ == Phase::ScaleIndexBase && source != end)` block: absorbs
one byte into `sib_` and — as in the source — does not advance the phase. -/
def sibPhase (s : DState) (src : List Nat) : DState × List Nat :=
  match src with
  | [] => (s, [])
  | b :: rest =>
    if s.phase = Phase.ScaleIndexBase then
      ({ s with sib := ScaleIndexBase.ofByte (b % 256), consumed := s.consumed + 1 }, rest)
    else (s, b :: rest)

/-- One step of the operand accumulator:
`inward_data_ = (inward_data_ >> 8) | (uint64_t(byte) << 56)`. -/
def insertByte (d b : Nat) : Nat :=
  (d >>> 8) ||| ((b % 256) <<< 56)

/-- Reinterpretation of a `uint64 >> 56` value as the C++ `int8_t` cast. -/
def toInt8 (x : Nat) : Int :=
  if x % 256 < 128 then Int.ofNat (x % 256) else Int.ofNat (x % 256) - 256

/-- Reinterpretation of a `uint64 >> 48` value as the C++ `int16_t` cast. -/
def toInt16 (x : Nat) : Int :=
  if x % 65536 < 32768 then Int.ofNat (x % 65536) else Int.ofNat (x % 65536) - 65536

/-- The immediate-operand fix-up inside `case 1:` of the operand switch:
`operand_ |= (operand_ & 0x80) ? 0xff00 : 0x0000;` applied under
`operation_size_ == 2 && operation_ != IN && operation_ != OUT`. -/
def signExtendByteOperand (s : DState) (op : Nat) : Nat :=
  if s.operation_size = 2 ∧ s.operation ≠ Operation.IN ∧ s.operation ≠ Operation.OUT then
    if op &&& 0x80 ≠ 0 then op ||| 0xff00 else op
  else op

/-- The completion step of `Phase::DisplacementOrOperand`: set
`ReadyToPost`, extract the operand per `operand_size_` (with the `case 4`
fallthrough that redeclares a 2-byte displacement), then extract the
displacement per the (possibly updated) `displacement_size_`. -/
def finishOperands (s0 : DState) : DState :=
  let s := { s0 with phase := Phase.ReadyToPost }
  let s :=
    match s.operand_size with
    | 1 => { s with
               operand := signExtendByteOperand s (s.inward_data >>> 56),
               inward_data := (s.inward_data <<< 8) % 2 ^ 64 }
    | 2 => { s with
               operand := s.inward_data >>> 48,
               inward_data := (s.inward_data <<< 16) % 2 ^ 64 }
    | 4 => { s with
               operand := s.inward_data >>> 48,
               inward_data := (s.inward_data <<< 16) % 2 ^ 64,
               displacement_size := 2 }
    | _ => { s with operand := 0 }
  match s.displacement_size with
  | 1 => { s with displacement := toInt8 (s.inward_data >>> 56) }
  | 2 => { s with displacement := toInt16 (s.inward_data >>> 48) }
  | _ => { s with displacement := 0 }

/-- The `if(phase_ == Phase::DisplacementOrOperand && source != end)` block:
consume `min(available, outstanding)` bytes into the accumulator; if that
completes the requirement, finish the operands, else return the precise
negative count of bytes still required. -/
def dispPhase (s : DState) (src : List Nat) : Flow :=
  match src with
  | [] => Flow.go s []
  | b :: rest =>
    if s.phase = Phase.DisplacementOrOperand then
      let required := s.displacement_size + s.operand_size
      let outstanding := required - s.operand_bytes
      let btc := min (b :: rest).length outstanding
      let s' := { s with
        inward_data := ((b :: rest).take btc).foldl insertByte s.inward_data,
        consumed := s.consumed + btc,
        operand_bytes := s.operand_bytes + btc }
      if btc = outstanding then Flow.go (finishOperands s') ((b :: rest).drop btc)
      else Flow.ret (-(Int.ofNat (outstanding - btc)), Instruction.empty) s'
        ((b :: rest).drop btc)
    else Flow.go s (b :: rest)

/-- Constructor call building the posted `InstructionT` from the accumulated
state, in the argument order of the source. -/
def mkInstruction (s : DState) : Instruction :=
  { operation := s.operation,
    source := s.source,
    destination := s.destination,
    sib := s.sib,
    lock := s.lock,
    address_size := s.address_size,
    segment_override := s.segment_override,
    repetition := s.repetition,
    size := s.operation_size,
    displacement := s.displacement,
    operand := s.operand }

/-- The tail of `decode`: either an early return already happened, or the
completion check posts a finished instruction (resetting the parser), or the
neutral `(0, InstructionT())` "not done yet" result is returned. -/
def finishDecode (f : Flow) : (Int × Instruction) × DState × List Nat :=
  match f with
  | Flow.ret o s r => (o, s, r)
  | Flow.go s r =>
    if s.phase = Phase.ReadyToPost then
      ((Int.ofNat s.consumed, mkInstruction s), reset_parsing s, r)
    else ((0, Instruction.empty), s, r)

/-- Stage of `decode` following the ModRegRM block: the (dead)
`ScaleIndexBase` block, the displacement/operand accumulator, and the
completion check. -/
def decodeAfterModRM (s3 : DState) (r3 : List Nat) :
    (Int × Instruction) × DState × List Nat :=
  match sibPhase s3 r3 with
  | (s4, r4) => finishDecode (dispPhase s4 r4)

/-- Stage of `decode` following the `0x0f`-page block. -/
def decodeAfterPageF (s2 : DState) (r2 : List Nat) :
    (Int × Instruction) × DState × List Nat :=
  match modRMPhase s2 r2 with
  | Flow.ret o s' r => (o, s', r)
  | Flow.go s3 r3 => decodeAfterModRM s3 r3

/-- Stage of `decode` following the opcode loop. -/
def decodeAfterLoop (m : Model) (s1 : DState) (r1 : List Nat) :
    (Int × Instruction) × DState × List Nat :=
  match pageFPhase m s1 r1 with
  | Flow.ret o s' r => (o, s', r)
  | Flow.go s2 r2 => decodeAfterPageF s2 r2

/-- `Decoder<model>::decode(source, length)`: the phase blocks run in source
order; the result is the `(count, instruction)` pair together with the
decoder state after the call and the unconsumed suffix of the buffer. -/
def decode (m : Model) (s : DState) (src : List Nat) :
    (Int × Instruction) × DState × List Nat :=
  match instructionLoop m s src with
  | Flow.ret o s' r => (o, s', r)
  | Flow.go s1 r1 => decodeAfterLoop m s1 r1



def Inv (s : DState) : Prop :=
  s.phase ≠ Phase.ScaleIndexBase ∧ s.phase ≠ Phase.ReadyToPost ∧
  ((s.phase = Phase.Instruction ∨ s.phase = Phase.InstructionPageF ∨
      s.phase = Phase.ModRegRM) → s.operand_bytes = 0) ∧
  (s.phase = Phase.DisplacementOrOperand →
      s.operand_bytes < s.displacement_size + s.operand_size)

def stepPost (s : DState) (r : StepRes) : Prop :=
  match r with
  | StepRes.ret o s' =>
      s' = initialState ∧ o = (Int.ofNat (s.consumed + 1), Instruction.empty)
  | StepRes.next s' =>
      s'.operand_bytes = s.operand_bytes ∧
      s'.consumed = s.consumed + 1 ∧
      s'.phase ≠ Phase.ScaleIndexBase ∧
      (s'.phase = Phase.DisplacementOrOperand → 0 < s'.displacement_size + s'.operand_size)

def actWF : Act → Bool
  | Act.regData _ _ size => 0 < size
  | Act.regAddr _ _ _ addrSize => 0 < addrSize
  | Act.addrReg _ _ _ addrSize => 0 < addrSize
  | _ => true

/-- The "outstanding bytes" quantity of the accumulator phase. -/
def outstanding (s : DState) : Nat :=
  s.displacement_size + s.operand_size - s.operand_bytes

/-- The state of the accumulator after absorbing `k` bytes of `src`. -/
def accState (s : DState) (src : List Nat) (k : Nat) : DState :=
  { s with inward_data := (src.take k).foldl insertByte s.inward_data,
           consumed := s.consumed + k,
           operand_bytes := s.operand_bytes + k }

set_option linter.unusedVariables false in
/-- Caller loop: repeatedly call `decode` on the unconsumed remainder of one
buffer, collecting every completed `(count, instruction)` pair. -/
def driveChunk (m : Model) (s : DState) (src : List Nat) :
    DState × List (Int × Instruction) :=
  if h : 0 < (decode m s src).1.1 ∧ (decode m s src).2.2.length < src.length then
    ((driveChunk m (decode m s src).2.1 (decode m s src).2.2).1,
     (decode m s src).1 :: (driveChunk m (decode m s src).2.1 (decode m s src).2.2).2)
  else ((decode m s src).2.1, [])
termination_by src.length
decreasing_by exact h.2

/-- Reference semantics: feed the decoder one byte per call. -/
def byteRun (m : Model) : DState → List Nat → DState × List (Int × Instruction)
  | s, [] => (s, [])
  | s, x :: rest =>
    ((byteRun m (decode m s [x]).2.1 rest).1,
     if 0 < (decode m s [x]).1.1 then
       (decode m s [x]).1 :: (byteRun m (decode m s [x]).2.1 rest).2
     else (byteRun m (decode m s [x]).2.1 rest).2)

/-- Drive the decoder over a sequence of buffers (chunks), collecting all
completed instructions in order. -/
def driveChunks (m : Model) : DState → List (List Nat) → DState × List (Int × Instruction)
  | s, [] => (s, [])
  | s, c :: cs =>
    ((driveChunks m (driveChunk m s c).1 cs).1,
     (driveChunk m s c).2 ++ (driveChunks m (driveChunk m s c).1 cs).2)



/-- The decoder state left behind after feeding only the opcode byte `0xB8`
(`MOV AX, imm16`) to a fresh decoder. -/
def afterB8 : DState := (decode Model.i8086 initialState [0xb8]).2.1

/-- Assemble a ModRegRM byte from its `mod`, `reg` and `rm` fields. -/
def modrmByte (mod reg rm : Nat) : Nat := 64 * mod + 8 * reg + rm

/-- States reachable from the initial decoder state by any sequence of
`decode` calls with arbitrary buffers. -/
inductive Reachable (m : Model) : DState → Prop where
  | init : Reachable m initialState
  | step : ∀ (s : DState) (src : List Nat), Reachable m s → Reachable m (decode m s src).2.1

set_option maxRecDepth 4000 in
theorem armAct_wf (m : Model) (b : Nat) (hb : b < 256) : actWF (armAct m b) = true := by
  revert b hb
  cases m <;> decide

theorem instructionStep_ok (m : Model) (s : DState) (b : Nat)
    (hph : s.phase = Phase.Instruction) :
    stepPost s (instructionStep m s b) := by
  have h256 : b % 256 < 256 := Nat.mod_lt _ (by omega)
  have hwf := armAct_wf m (b % 256) h256
  unfold instructionStep instructionArm
  generalize harm : armAct m (b % 256) = a
  rw [harm] at hwf
  cases a <;>
    simp_all [stepPost, applyAct, actWF, undefinedRet, reset_parsing, completeOp,
      setOpSrcDestSize, regData, regAddr, addrReg, memRegReg, jumpOp, farOp,
      displacement16Operand8]

theorem pageFStep_ok (m : Model) (s : DState) (b : Nat) :
    stepPost s (pageFStep m s b) := by
  unfold pageFStep pageFArm
  split <;> (try split) <;>
    simp [stepPost, undefinedRet, reset_parsing, memRegReg, completeOp, setOpSrcDestSize]

theorem modSwitch_fields (s : DState) (mod rm : Nat) (memreg : Source) (s1 : DState)
    (h : modSwitch s mod rm = some (memreg, s1)) :
    s1.operand_bytes = s.operand_bytes ∧ s1.consumed = s.consumed ∧
    s1.phase = s.phase ∧ s1.modregrm_format = s.modregrm_format ∧
    s1.operand_size = s.operand_size := by
  unfold modSwitch at h
  split_ifs at h <;>
    (simp only [Option.some.injEq, Prod.mk.injEq] at h
     obtain ⟨-, h2⟩ := h
     subst h2
     simp)

theorem formatSwitch_fields (s : DState) (memreg : Source) (reg : Nat) (s2 : DState)
    (h : formatSwitch s memreg reg = some s2) :
    s2.operand_bytes = s.operand_bytes ∧ s2.consumed = s.consumed ∧
    s2.phase = s.phase ∧ s2.displacement_size = s.displacement_size := by
  unfold formatSwitch at h
  split at h <;> (try split at h) <;>
    first
      | (simp only [Option.some.injEq] at h
         subst h
         simp)
      | simp at h

theorem modRMStep_ok (s : DState) (b : Nat) :
    stepPost s (modRMStep s b) ∧
    (∀ s', modRMStep s b = StepRes.next s' →
      s'.phase = Phase.DisplacementOrOperand ∨ s'.phase = Phase.ReadyToPost) := by
  unfold modRMStep modRMWith
  rcases h1 : modSwitch { s with consumed := s.consumed + 1 } ((b % 256) >>> 6)
      ((b % 256) &&& 7) with _ | ⟨memreg, s1⟩
  · simp [h1, stepPost, undefinedRet, reset_parsing]
  · obtain ⟨hob, hc, -, -, -⟩ := modSwitch_fields _ _ _ _ _ h1
    rcases h2 : formatSwitch s1 memreg ((b % 256) >>> 3 &&& 7) with _ | s2
    · simp [h1, h2, stepPost, undefinedRet, reset_parsing, hob, hc]
    · obtain ⟨hob2, hc2, -, -⟩ := formatSwitch_fields _ _ _ _ h2
      refine ⟨?_, ?_⟩
      · simp only [h1, h2, stepPost]
        refine ⟨by simp [hob2, hob], by simp [hc2, hc], ?_, ?_⟩
        · split <;> simp
        · intro hph
          split at hph <;> simp_all
          omega
      · intro s' hs'
        simp only [h1, h2, StepRes.next.injEq] at hs'
        subst hs'
        split <;> simp

/-! Equation and passthrough lemmas for the phase blocks. -/

theorem loop_nil (m : Model) (s : DState) : instructionLoop m s [] = Flow.go s [] := rfl

theorem loop_cons (m : Model) (s : DState) (b : Nat) (rest : List Nat)
    (h : s.phase = Phase.Instruction) :
    instructionLoop m s (b :: rest) =
      match instructionStep m s b with
      | StepRes.ret o s' => Flow.ret o s' rest
      | StepRes.next s' => instructionLoop m s' rest := by
  cases hs : instructionStep m s b <;> (conv_lhs => unfold instructionLoop) <;> simp [h, hs]

theorem loop_pass (m : Model) (s : DState) (src : List Nat)
    (h : s.phase ≠ Phase.Instruction) : instructionLoop m s src = Flow.go s src := by
  cases src <;> (unfold instructionLoop; simp [h])

theorem pageF_nil (m : Model) (s : DState) : pageFPhase m s [] = Flow.go s [] := rfl

theorem pageF_cons (m : Model) (s : DState) (b : Nat) (rest : List Nat)
    (h : s.phase = Phase.InstructionPageF) :
    pageFPhase m s (b :: rest) =
      match pageFStep m s b with
      | StepRes.ret o s' => Flow.ret o s' rest
      | StepRes.next s' => Flow.go s' rest := by
  cases hs : pageFStep m s b <;> (conv_lhs => unfold pageFPhase) <;> simp [h, hs]

theorem pageF_pass (m : Model) (s : DState) (src : List Nat)
    (h : s.phase ≠ Phase.InstructionPageF) : pageFPhase m s src = Flow.go s src := by
  cases src <;> (unfold pageFPhase; simp [h])

theorem modRM_nil (s : DState) : modRMPhase s [] = Flow.go s [] := rfl

theorem modRM_cons (s : DState) (b : Nat) (rest : List Nat)
    (h : s.phase = Phase.ModRegRM) :
    modRMPhase s (b :: rest) =
      match modRMStep s b with
      | StepRes.ret o s' => Flow.ret o s' rest
      | StepRes.next s' => Flow.go s' rest := by
  cases hs : modRMStep s b <;> (conv_lhs => unfold modRMPhase) <;> simp [h, hs]

theorem modRM_pass (s : DState) (src : List Nat)
    (h : s.phase ≠ Phase.ModRegRM) : modRMPhase s src = Flow.go s src := by
  cases src <;> (unfold modRMPhase; simp [h])

theorem loop_cons_ret (m : Model) (s : DState) (b : Nat) (rest : List Nat)
    (o : Int × Instruction) (s' : DState) (h : s.phase = Phase.Instruction)
    (hr : instructionStep m s b = StepRes.ret o s') :
    instructionLoop m s (b :: rest) = Flow.ret o s' rest := by
  unfold instructionLoop
  simp [h, hr]

theorem loop_cons_next (m : Model) (s : DState) (b : Nat) (rest : List Nat)
    (s' : DState) (h : s.phase = Phase.Instruction)
    (hr : instructionStep m s b = StepRes.next s') :
    instructionLoop m s (b :: rest) = instructionLoop m s' rest := by
  conv_lhs => unfold instructionLoop
  simp [h, hr]

theorem pageF_cons_ret (m : Model) (s : DState) (b : Nat) (rest : List Nat)
    (o : Int × Instruction) (s' : DState) (h : s.phase = Phase.InstructionPageF)
    (hr : pageFStep m s b = StepRes.ret o s') :
    pageFPhase m s (b :: rest) = Flow.ret o s' rest := by
  unfold pageFPhase
  simp [h, hr]

theorem pageF_cons_next (m : Model) (s : DState) (b : Nat) (rest : List Nat)
    (s' : DState) (h : s.phase = Phase.InstructionPageF)
    (hr : pageFStep m s b = StepRes.next s') :
    pageFPhase m s (b :: rest) = Flow.go s' rest := by
  unfold pageFPhase
  simp [h, hr]

theorem modRM_cons_ret (s : DState) (b : Nat) (rest : List Nat)
    (o : Int × Instruction) (s' : DState) (h : s.phase = Phase.ModRegRM)
    (hr : modRMStep s b = StepRes.ret o s') :
    modRMPhase s (b :: rest) = Flow.ret o s' rest := by
  unfold modRMPhase
  simp [h, hr]

theorem modRM_cons_next (s : DState) (b : Nat) (rest : List Nat)
    (s' : DState) (h : s.phase = Phase.ModRegRM)
    (hr : modRMStep s b = StepRes.next s') :
    modRMPhase s (b :: rest) = Flow.go s' rest := by
  unfold modRMPhase
  simp [h, hr]

theorem sib_pass (s : DState) (src : List Nat)
    (h : s.phase ≠ Phase.ScaleIndexBase) : sibPhase s src = (s, src) := by
  cases src <;> (unfold sibPhase; simp [h])

theorem disp_nil (s : DState) : dispPhase s [] = Flow.go s [] := rfl

theorem disp_pass (s : DState) (src : List Nat)
    (h : s.phase ≠ Phase.DisplacementOrOperand) : dispPhase s src = Flow.go s src := by
  cases src <;> (unfold dispPhase; simp [h])

theorem finishDecode_post (s : DState) (r : List Nat) (h : s.phase = Phase.ReadyToPost) :
    finishDecode (Flow.go s r) =
      ((Int.ofNat s.consumed, mkInstruction s), initialState, r) := by
  simp [finishDecode, h, reset_parsing]

theorem finishDecode_pend (s : DState) (r : List Nat) (h : s.phase ≠ Phase.ReadyToPost) :
    finishDecode (Flow.go s r) = ((0, Instruction.empty), s, r) := by
  simp [finishDecode, h]

theorem disp_cons (s : DState) (b : Nat) (rest : List Nat)
    (h : s.phase = Phase.DisplacementOrOperand) :
    dispPhase s (b :: rest) =
      (if min (b :: rest).length (outstanding s) = outstanding s then
        Flow.go
          (finishOperands
            { s with
                inward_data :=
                  ((b :: rest).take (min (b :: rest).length (outstanding s))).foldl
                    insertByte s.inward_data,
                consumed := s.consumed + min (b :: rest).length (outstanding s),
                operand_bytes := s.operand_bytes + min (b :: rest).length (outstanding s) })
          ((b :: rest).drop (min (b :: rest).length (outstanding s)))
      else
        Flow.ret (-(Int.ofNat (outstanding s - min (b :: rest).length (outstanding s))),
            Instruction.empty)
          { s with
              inward_data :=
                ((b :: rest).take (min (b :: rest).length (outstanding s))).foldl
                  insertByte s.inward_data,
              consumed := s.consumed + min (b :: rest).length (outstanding s),
              operand_bytes := s.operand_bytes + min (b :: rest).length (outstanding s) }
          ((b :: rest).drop (min (b :: rest).length (outstanding s)))) := by
  unfold dispPhase outstanding
  simp [h]

theorem finishOperands_phase (s : DState) :
    (finishOperands s).phase = Phase.ReadyToPost := by
  simp only [finishOperands]
  split <;> split <;> rfl

theorem finishOperands_consumed (s : DState) :
    (finishOperands s).consumed = s.consumed := by
  simp only [finishOperands]
  split <;> split <;> rfl

/-! Composition helpers for `decode`. -/

theorem sib_nil (s : DState) : sibPhase s [] = (s, []) := rfl

theorem Inv_initial : Inv initialState := by
  simp [Inv, initialState]

theorem decode_loop_pass (m : Model) (s : DState) (src : List Nat)
    (h : s.phase ≠ Phase.Instruction) : decode m s src = decodeAfterLoop m s src := by
  unfold decode
  rw [loop_pass m s src h]

theorem decodeAfterLoop_pass (m : Model) (s : DState) (src : List Nat)
    (h : s.phase ≠ Phase.InstructionPageF) :
    decodeAfterLoop m s src = decodeAfterPageF s src := by
  unfold decodeAfterLoop
  rw [pageF_pass m s src h]

theorem decodeAfterPageF_pass (s : DState) (src : List Nat)
    (h : s.phase ≠ Phase.ModRegRM) : decodeAfterPageF s src = decodeAfterModRM s src := by
  unfold decodeAfterPageF
  rw [modRM_pass s src h]

theorem decodeAfterModRM_eq (s : DState) (src : List Nat)
    (h : s.phase ≠ Phase.ScaleIndexBase) :
    decodeAfterModRM s src = finishDecode (dispPhase s src) := by
  unfold decodeAfterModRM
  rw [sib_pass s src h]

theorem decodeAfterLoop_nil (m : Model) (s : DState) :
    decodeAfterLoop m s [] = finishDecode (Flow.go s []) := rfl

theorem decodeAfterPageF_nil (s : DState) :
    decodeAfterPageF s [] = finishDecode (Flow.go s []) := rfl

theorem decodeAfterModRM_nil (s : DState) :
    decodeAfterModRM s [] = finishDecode (Flow.go s []) := rfl

theorem disp_complete (s : DState) (src : List Nat) (h : s.phase = Phase.DisplacementOrOperand)
    (hsrc : src ≠ []) (hlen : outstanding s ≤ src.length) :
    dispPhase s src =
      Flow.go (finishOperands (accState s src (outstanding s))) (src.drop (outstanding s)) := by
  rcases src with _ | ⟨b, rest⟩
  · exact absurd rfl hsrc
  · rw [disp_cons s b rest h]
    have hmin : min (b :: rest).length (outstanding s) = outstanding s := by omega
    rw [hmin]
    simp [accState]

theorem disp_short (s : DState) (src : List Nat) (h : s.phase = Phase.DisplacementOrOperand)
    (hsrc : src ≠ []) (hlen : src.length < outstanding s) :
    dispPhase s src =
      Flow.ret (-(Int.ofNat (outstanding s - src.length)), Instruction.empty)
        (accState s src src.length) [] := by
  rcases src with _ | ⟨b, rest⟩
  · exact absurd rfl hsrc
  · rw [disp_cons s b rest h]
    have hmin : min (b :: rest).length (outstanding s) = (b :: rest).length := by omega
    rw [hmin]
    have hne : ¬(rest.length + 1 = outstanding s) := by
      simp only [List.length_cons] at hlen
      omega
    simp [hne, accState]

/-! The master lemma on a one-byte buffer. -/

theorem decode_one (m : Model) (s : DState) (x : Nat) (hInv : Inv s) :
    (decode m s [x]).2.2 = [] ∧
    Inv (decode m s [x]).2.1 ∧
    (0 < (decode m s [x]).1.1 → (decode m s [x]).2.1 = initialState) := by
  obtain ⟨hsib, hrtp, hob0, hdisp⟩ := hInv
  by_cases hph : s.phase = Phase.Instruction
  · -- Phase::Instruction consumes the byte.
    have hstep := instructionStep_ok m s x hph
    cases hr : instructionStep m s x with
    | ret o s' =>
      rw [hr] at hstep
      obtain ⟨hs', ho⟩ := hstep
      have hd : decode m s [x] = (o, s', []) := by
        unfold decode
        rw [loop_cons_ret m s x [] o s' hph hr]
      rw [hd, hs']
      exact ⟨rfl, Inv_initial, fun _ => rfl⟩
    | next s' =>
      rw [hr] at hstep
      obtain ⟨hob, hc, hnsib, hdisp'⟩ := hstep
      have hd : decode m s [x] = finishDecode (Flow.go s' []) := by
        unfold decode
        rw [loop_cons_next m s x [] s' hph hr, loop_nil]
        exact decodeAfterLoop_nil m s'
      by_cases hph' : s'.phase = Phase.ReadyToPost
      · rw [hd, finishDecode_post s' [] hph']
        exact ⟨rfl, Inv_initial, fun _ => rfl⟩
      · rw [hd, finishDecode_pend s' [] hph']
        refine ⟨rfl, ⟨hnsib, hph', ?_, ?_⟩, by simp⟩
        · intro _
          rw [hob]
          exact hob0 (Or.inl hph)
        · intro hdp
          rw [hob, hob0 (Or.inl hph)]
          exact hdisp' hdp
  · -- Later phases: the loop passes through.
    have hd0 : decode m s [x] = decodeAfterLoop m s [x] := decode_loop_pass m s [x] hph
    by_cases hphF : s.phase = Phase.InstructionPageF
    · have hstep := pageFStep_ok m s x
      cases hr : pageFStep m s x with
      | ret o s' =>
        rw [hr] at hstep
        obtain ⟨hs', ho⟩ := hstep
        have hd : decode m s [x] = (o, s', []) := by
          rw [hd0]
          unfold decodeAfterLoop
          rw [pageF_cons_ret m s x [] o s' hphF hr]
        rw [hd, hs']
        exact ⟨rfl, Inv_initial, fun _ => rfl⟩
      | next s' =>
        rw [hr] at hstep
        obtain ⟨hob, hc, hnsib, hdisp'⟩ := hstep
        have hd : decode m s [x] = finishDecode (Flow.go s' []) := by
          rw [hd0]
          unfold decodeAfterLoop
          rw [pageF_cons_next m s x [] s' hphF hr]
          exact decodeAfterPageF_nil s'
        by_cases hph' : s'.phase = Phase.ReadyToPost
        · rw [hd, finishDecode_post s' [] hph']
          exact ⟨rfl, Inv_initial, fun _ => rfl⟩
        · rw [hd, finishDecode_pend s' [] hph']
          refine ⟨rfl, ⟨hnsib, hph', ?_, ?_⟩, by simp⟩
          · intro _
            rw [hob]
            exact hob0 (Or.inr (Or.inl hphF))
          · intro hdp
            rw [hob, hob0 (Or.inr (Or.inl hphF))]
            exact hdisp' hdp
    · have hd1 : decode m s [x] = decodeAfterPageF s [x] := by
        rw [hd0, decodeAfterLoop_pass m s [x] hphF]
      by_cases hphM : s.phase = Phase.ModRegRM
      · obtain ⟨hstep, hnxt⟩ := modRMStep_ok s x
        cases hr : modRMStep s x with
        | ret o s' =>
          rw [hr] at hstep
          obtain ⟨hs', ho⟩ := hstep
          have hd : decode m s [x] = (o, s', []) := by
            rw [hd1]
            unfold decodeAfterPageF
            rw [modRM_cons_ret s x [] o s' hphM hr]
          rw [hd, hs']
          exact ⟨rfl, Inv_initial, fun _ => rfl⟩
        | next s' =>
          rw [hr] at hstep
          obtain ⟨hob, hc, hnsib, hdisp'⟩ := hstep
          have hd : decode m s [x] = finishDecode (Flow.go s' []) := by
            rw [hd1]
            unfold decodeAfterPageF
            rw [modRM_cons_next s x [] s' hphM hr]
            exact decodeAfterModRM_nil s'
          by_cases hph' : s'.phase = Phase.ReadyToPost
          · rw [hd, finishDecode_post s' [] hph']
            exact ⟨rfl, Inv_initial, fun _ => rfl⟩
          · rw [hd, finishDecode_pend s' [] hph']
            refine ⟨rfl, ⟨hnsib, hph', ?_, ?_⟩, by simp⟩
            · intro _
              rw [hob]
              exact hob0 (Or.inr (Or.inr hphM))
            · intro hdp
              rw [hob, hob0 (Or.inr (Or.inr hphM))]
              exact hdisp' hdp
      · -- Remaining allowed phase: DisplacementOrOperand.
        have hphD : s.phase = Phase.DisplacementOrOperand := by
          cases h' : s.phase <;> simp_all
        have hout : 1 ≤ outstanding s := by
          have := hdisp hphD
          unfold outstanding
          omega
        have hd2 : decode m s [x] = finishDecode (dispPhase s [x]) := by
          rw [hd1, decodeAfterPageF_pass s [x] hphM, decodeAfterModRM_eq s [x] hsib]
        by_cases hone : outstanding s ≤ 1
        · have hone' : outstanding s = 1 := by omega
          have hd3 : decode m s [x] =
              ((Int.ofNat (s.consumed + 1),
                mkInstruction (finishOperands (accState s [x] 1))),
               initialState, []) := by
            rw [hd2, disp_complete s [x] hphD (by simp) (by simp [hone']), hone']
            simp only [List.drop_succ_cons, List.drop_nil]
            rw [finishDecode_post _ _ (finishOperands_phase _)]
            rw [finishOperands_consumed]
            simp [accState]
          rw [hd3]
          exact ⟨rfl, Inv_initial, fun _ => rfl⟩
        · have hlen : (1 : Nat) < outstanding s := by omega
          have hd3 : decode m s [x] =
              ((-(Int.ofNat (outstanding s - 1)), Instruction.empty),
               accState s [x] 1, []) := by
            rw [hd2, disp_short s [x] hphD (by simp) (by simp; omega)]
            simp [finishDecode]
          rw [hd3]
          refine ⟨rfl, ⟨?_, ?_, ?_, ?_⟩, ?_⟩
          · simp [accState, hphD]
          · simp [accState, hphD]
          · intro hcon
            simp [accState, hphD] at hcon
          · intro _
            have := hdisp hphD
            simp only [accState]
            unfold outstanding at hlen
            omega
          · intro hcon
            simp at hcon
            omega

theorem pageFStep_next_phase (m : Model) (s : DState) (b : Nat) (s' : DState)
    (hr : pageFStep m s b = StepRes.next s') :
    s'.phase = Phase.ModRegRM ∨ s'.phase = Phase.ReadyToPost := by
  unfold pageFStep pageFArm at hr
  split at hr <;> (try split at hr) <;>
    first
      | (simp only [StepRes.next.injEq] at hr
         subst hr
         simp [memRegReg, completeOp, setOpSrcDestSize])
      | simp [undefinedRet] at hr

/-! Helpers for `decode` on a buffer with a tail. -/

theorem decode_post_state (m : Model) (s : DState) (src : List Nat)
    (h : s.phase = Phase.ReadyToPost) :
    decode m s src = ((Int.ofNat s.consumed, mkInstruction s), initialState, src) := by
  rw [decode_loop_pass m s src (by simp [h]), decodeAfterLoop_pass m s src (by simp [h]),
      decodeAfterPageF_pass s src (by simp [h]), decodeAfterModRM_eq s src (by simp [h]),
      disp_pass s src (by simp [h]), finishDecode_post s src h]

theorem decode_instr_next (m : Model) (s : DState) (x : Nat) (rest : List Nat)
    (s' : DState) (hph : s.phase = Phase.Instruction)
    (hr : instructionStep m s x = StepRes.next s') :
    decode m s (x :: rest) = decode m s' rest := by
  unfold decode
  rw [loop_cons_next m s x rest s' hph hr]

theorem decode_instr_ret (m : Model) (s : DState) (x : Nat) (rest : List Nat)
    (o : Int × Instruction) (s' : DState) (hph : s.phase = Phase.Instruction)
    (hr : instructionStep m s x = StepRes.ret o s') :
    decode m s (x :: rest) = (o, s', rest) := by
  unfold decode
  rw [loop_cons_ret m s x rest o s' hph hr]

theorem decode_pageF_ret (m : Model) (s : DState) (x : Nat) (rest : List Nat)
    (o : Int × Instruction) (s' : DState) (hph : s.phase = Phase.InstructionPageF)
    (hr : pageFStep m s x = StepRes.ret o s') :
    decode m s (x :: rest) = (o, s', rest) := by
  rw [decode_loop_pass m s _ (by simp [hph])]
  unfold decodeAfterLoop
  rw [pageF_cons_ret m s x rest o s' hph hr]

theorem decode_pageF_next (m : Model) (s : DState) (x : Nat) (rest : List Nat)
    (s' : DState) (hph : s.phase = Phase.InstructionPageF)
    (hr : pageFStep m s x = StepRes.next s') :
    decode m s (x :: rest) = decodeAfterPageF s' rest := by
  rw [decode_loop_pass m s _ (by simp [hph])]
  unfold decodeAfterLoop
  rw [pageF_cons_next m s x rest s' hph hr]

theorem decode_modRM_ret (m : Model) (s : DState) (x : Nat) (rest : List Nat)
    (o : Int × Instruction) (s' : DState) (hph : s.phase = Phase.ModRegRM)
    (hr : modRMStep s x = StepRes.ret o s') :
    decode m s (x :: rest) = (o, s', rest) := by
  rw [decode_loop_pass m s _ (by simp [hph]), decodeAfterLoop_pass m s _ (by simp [hph])]
  unfold decodeAfterPageF
  rw [modRM_cons_ret s x rest o s' hph hr]

theorem decode_modRM_next (m : Model) (s : DState) (x : Nat) (rest : List Nat)
    (s' : DState) (hph : s.phase = Phase.ModRegRM)
    (hr : modRMStep s x = StepRes.next s') :
    decode m s (x :: rest) = decodeAfterModRM s' rest := by
  rw [decode_loop_pass m s _ (by simp [hph]), decodeAfterLoop_pass m s _ (by simp [hph])]
  unfold decodeAfterPageF
  rw [modRM_cons_next s x rest s' hph hr]

theorem decode_at_pageF (m : Model) (s : DState) (src : List Nat)
    (h : s.phase = Phase.InstructionPageF) :
    decode m s src = decodeAfterLoop m s src :=
  decode_loop_pass m s src (by simp [h])

theorem decode_at_modRM (m : Model) (s : DState) (src : List Nat)
    (h : s.phase = Phase.ModRegRM) :
    decode m s src = decodeAfterPageF s src := by
  rw [decode_loop_pass m s src (by simp [h]), decodeAfterLoop_pass m s src (by simp [h])]

theorem decode_at_disp (m : Model) (s : DState) (src : List Nat)
    (h : s.phase = Phase.DisplacementOrOperand) :
    decode m s src = finishDecode (dispPhase s src) := by
  rw [decode_loop_pass m s src (by simp [h]), decodeAfterLoop_pass m s src (by simp [h]),
      decodeAfterPageF_pass s src (by simp [h]), decodeAfterModRM_eq s src (by simp [h])]

theorem accState_phase (s : DState) (src : List Nat) (k : Nat) :
    (accState s src k).phase = s.phase := rfl

theorem accState_cons (s : DState) (x : Nat) (rest : List Nat) (k : Nat) :
    accState s (x :: rest) (k + 1) = accState (accState s [x] 1) rest k := by
  simp [accState, List.take_succ_cons, Nat.add_assoc]
  omega

theorem outstanding_acc (s : DState) (x : Nat) :
    outstanding (accState s [x] 1) = outstanding s - 1 := by
  simp [accState, outstanding]
  omega

/-- Resumption of the accumulator: consuming the head byte first and the tail
in a second call is the same as consuming the whole buffer. -/
theorem disp_split (s : DState) (x : Nat) (rest : List Nat)
    (hph : s.phase = Phase.DisplacementOrOperand) (hr : rest ≠ [])
    (hout : 2 ≤ outstanding s) :
    dispPhase s (x :: rest) = dispPhase (accState s [x] 1) rest := by
  have hph2 : (accState s [x] 1).phase = Phase.DisplacementOrOperand := by
    rw [accState_phase, hph]
  have hout2 : outstanding (accState s [x] 1) = outstanding s - 1 := outstanding_acc s x
  by_cases hlen : outstanding s ≤ (x :: rest).length
  · -- Enough bytes in total: both sides complete.
    have hlen2 : outstanding (accState s [x] 1) ≤ rest.length := by
      simp only [List.length_cons] at hlen
      omega
    rw [disp_complete s (x :: rest) hph (by simp) hlen,
        disp_complete (accState s [x] 1) rest hph2 hr hlen2, hout2]
    obtain ⟨k, hk⟩ : ∃ k, outstanding s = k + 1 := ⟨outstanding s - 1, by omega⟩
    rw [hk]
    simp only [Nat.add_sub_cancel]
    rw [accState_cons, List.drop_succ_cons]
  · -- Not enough bytes: both sides report the outstanding requirement.
    have hlen1 : (x :: rest).length < outstanding s := by omega
    have hlen2 : rest.length < outstanding (accState s [x] 1) := by
      simp only [List.length_cons] at hlen1
      omega
    rw [disp_short s (x :: rest) hph (by simp) hlen1,
        disp_short (accState s [x] 1) rest hph2 hr hlen2, hout2]
    have harith : outstanding s - (x :: rest).length =
        outstanding s - 1 - rest.length := by
      simp only [List.length_cons]
      omega
    rw [harith]
    have hacc : accState s (x :: rest) (x :: rest).length =
        accState (accState s [x] 1) rest rest.length := by
      simp only [List.length_cons]
      exact accState_cons s x rest rest.length
    rw [hacc]

/-! Chunk composition: one byte then the tail. -/

theorem decode_cons (m : Model) (s : DState) (x : Nat) (rest : List Nat)
    (hInv : Inv s) (hrest : rest ≠ []) :
    decode m s (x :: rest) =
      if 0 < (decode m s [x]).1.1 then ((decode m s [x]).1, initialState, rest)
      else decode m (decode m s [x]).2.1 rest := by
  obtain ⟨hsib, hrtp, hob0, hdisp⟩ := hInv
  by_cases hph : s.phase = Phase.Instruction
  · have hstep := instructionStep_ok m s x hph
    cases hr : instructionStep m s x with
    | ret o s' =>
      rw [hr] at hstep
      obtain ⟨hs', ho⟩ := hstep
      have hd : decode m s [x] = (o, s', []) := by
        unfold decode
        rw [loop_cons_ret m s x [] o s' hph hr]
      rw [decode_instr_ret m s x rest o s' hph hr, hd, hs', ho]
      simp
    | next s' =>
      rw [hr] at hstep
      obtain ⟨hob, hc, hnsib, hdisp'⟩ := hstep
      have hd : decode m s [x] = finishDecode (Flow.go s' []) := by
        unfold decode
        rw [loop_cons_next m s x [] s' hph hr, loop_nil]
        exact decodeAfterLoop_nil m s'
      rw [decode_instr_next m s x rest s' hph hr]
      by_cases hph' : s'.phase = Phase.ReadyToPost
      · rw [hd, finishDecode_post s' [] hph', decode_post_state m s' rest hph']
        simp [hc]
      · rw [hd, finishDecode_pend s' [] hph']
        simp
  · by_cases hphF : s.phase = Phase.InstructionPageF
    · have hstep := pageFStep_ok m s x
      cases hr : pageFStep m s x with
      | ret o s' =>
        rw [hr] at hstep
        obtain ⟨hs', ho⟩ := hstep
        have hd : decode m s [x] = (o, s', []) := by
          rw [decode_at_pageF m s [x] hphF]
          unfold decodeAfterLoop
          rw [pageF_cons_ret m s x [] o s' hphF hr]
        rw [decode_pageF_ret m s x rest o s' hphF hr, hd, hs', ho]
        simp
      | next s' =>
        rw [hr] at hstep
        obtain ⟨hob, hc, hnsib, hdisp'⟩ := hstep
        have hph2 := pageFStep_next_phase m s x s' hr
        have hd : decode m s [x] = finishDecode (Flow.go s' []) := by
          rw [decode_at_pageF m s [x] hphF]
          unfold decodeAfterLoop
          rw [pageF_cons_next m s x [] s' hphF hr]
          exact decodeAfterPageF_nil s'
        rw [decode_pageF_next m s x rest s' hphF hr]
        rcases hph2 with hph' | hph'
        · rw [hd, finishDecode_pend s' [] (by simp [hph'])]
          simp only [show ¬(0:Int) < 0 by omega, if_false]
          rw [decode_at_modRM m s' rest hph']
        · rw [hd, finishDecode_post s' [] hph']
          have : decodeAfterPageF s' rest = decode m s' rest := by
            rw [decode_loop_pass m s' rest (by simp [hph']),
                decodeAfterLoop_pass m s' rest (by simp [hph'])]
          rw [this, decode_post_state m s' rest hph']
          simp [hc]
    · by_cases hphM : s.phase = Phase.ModRegRM
      · obtain ⟨hstep, hnxt⟩ := modRMStep_ok s x
        cases hr : modRMStep s x with
        | ret o s' =>
          rw [hr] at hstep
          obtain ⟨hs', ho⟩ := hstep
          have hd : decode m s [x] = (o, s', []) := by
            rw [decode_at_modRM m s [x] hphM]
            unfold decodeAfterPageF
            rw [modRM_cons_ret s x [] o s' hphM hr]
          rw [decode_modRM_ret m s x rest o s' hphM hr, hd, hs', ho]
          simp
        | next s' =>
          rw [hr] at hstep
          obtain ⟨hob, hc, hnsib, hdisp'⟩ := hstep
          have hph2 := hnxt s' hr
          have hd : decode m s [x] = finishDecode (Flow.go s' []) := by
            rw [decode_at_modRM m s [x] hphM]
            unfold decodeAfterPageF
            rw [modRM_cons_next s x [] s' hphM hr]
            exact decodeAfterModRM_nil s'
          rw [decode_modRM_next m s x rest s' hphM hr]
          rcases hph2 with hph' | hph'
          · rw [hd, finishDecode_pend s' [] (by simp [hph'])]
            simp only [show ¬(0:Int) < 0 by omega, if_false]
            rw [decode_at_disp m s' rest hph', decodeAfterModRM_eq s' rest (by simp [hph'])]
          · rw [hd, finishDecode_post s' [] hph']
            have : decodeAfterModRM s' rest = decode m s' rest := by
              rw [decode_post_state m s' rest hph',
                  decodeAfterModRM_eq s' rest (by simp [hph']),
                  disp_pass s' rest (by simp [hph']), finishDecode_post s' rest hph']
            rw [this, decode_post_state m s' rest hph']
            simp [hc]
      · have hphD : s.phase = Phase.DisplacementOrOperand := by
          cases h' : s.phase <;> simp_all
        have hout : 1 ≤ outstanding s := by
          have := hdisp hphD
          unfold outstanding
          omega
        rw [decode_at_disp m s (x :: rest) hphD, decode_at_disp m s [x] hphD]
        by_cases hone : outstanding s ≤ 1
        · have hone' : outstanding s = 1 := by omega
          have hx : dispPhase s [x] =
              Flow.go (finishOperands (accState s [x] 1)) [] := by
            rw [disp_complete s [x] hphD (by simp) (by simp [hone']), hone']
            rfl
          have hxr : dispPhase s (x :: rest) =
              Flow.go (finishOperands (accState s (x :: rest) 1)) rest := by
            rw [disp_complete s (x :: rest) hphD (by simp) (by simp [hone'])]
            rw [hone']
            rfl
          have hacc : accState s (x :: rest) 1 = accState s [x] 1 := by
            simp [accState]
          rw [hxr, hacc, hx,
              finishDecode_post _ _ (finishOperands_phase _),
              finishDecode_post _ _ (finishOperands_phase _)]
          rw [finishOperands_consumed]
          have hcpos : 0 < (accState s [x] 1).consumed := by
            simp [accState]
          simp only [show (0:Int) < Int.ofNat (accState s [x] 1).consumed from
            Int.ofNat_pos.mpr hcpos, if_pos]
        · have h2 : 2 ≤ outstanding s := by omega
          rw [disp_split s x rest hphD hrest h2]
          have hx : dispPhase s [x] =
              Flow.ret (-(Int.ofNat (outstanding s - 1)), Instruction.empty)
                (accState s [x] 1) [] := by
            rw [disp_short s [x] hphD (by simp) (by simp; omega)]
            norm_num
          rw [hx]
          have hneg : ¬(0:Int) < (-(Int.ofNat (outstanding s - 1)), Instruction.empty).1 := by
            simp
          simp only [finishDecode, hneg, if_false]
          rw [decode_at_disp m (accState s [x] 1) rest (by rw [accState_phase, hphD])]
          rfl

/-! Whole-call properties of `decode`, by induction over the buffer. -/

theorem decode_nil_eq (m : Model) (s : DState) :
    decode m s [] = finishDecode (Flow.go s []) := rfl

theorem decode_nil (m : Model) (s : DState) (h : s.phase ≠ Phase.ReadyToPost) :
    decode m s [] = ((0, Instruction.empty), s, []) := by
  rw [decode_nil_eq, finishDecode_pend s [] h]

theorem decode_run (m : Model) : ∀ (src : List Nat) (s : DState), Inv s →
    Inv (decode m s src).2.1 ∧
    (0 < (decode m s src).1.1 →
      (decode m s src).2.1 = initialState ∧
      (decode m s src).2.2.length < src.length) := by
  intro src
  induction src with
  | nil =>
    intro s hInv
    rw [decode_nil m s hInv.2.1]
    exact ⟨hInv, by simp⟩
  | cons x rest ih =>
    intro s hInv
    rcases List.eq_nil_or_concat rest with hnil | -
    all_goals by_cases hr : rest = []
    case _ =>
      subst hr
      obtain ⟨hrem, hinv1, hinit⟩ := decode_one m s x hInv
      exact ⟨hinv1, fun hp => ⟨hinit hp, by rw [hrem]; simp⟩⟩
    case _ =>
      rw [decode_cons m s x rest hInv hr]
      obtain ⟨hrem, hinv1, hinit⟩ := decode_one m s x hInv
      by_cases hp : 0 < (decode m s [x]).1.1
      · rw [if_pos hp]
        exact ⟨Inv_initial, fun _ => ⟨rfl, by simp⟩⟩
      · rw [if_neg hp]
        obtain ⟨h1, h2⟩ := ih (decode m s [x]).2.1 hinv1
        refine ⟨h1, fun hpp => ⟨(h2 hpp).1, ?_⟩⟩
        have := (h2 hpp).2
        simp only [List.length_cons]
        omega
    case _ =>
      subst hr
      obtain ⟨hrem, hinv1, hinit⟩ := decode_one m s x hInv
      exact ⟨hinv1, fun hp => ⟨hinit hp, by rw [hrem]; simp⟩⟩
    case _ =>
      rw [decode_cons m s x rest hInv hr]
      obtain ⟨hrem, hinv1, hinit⟩ := decode_one m s x hInv
      by_cases hp : 0 < (decode m s [x]).1.1
      · rw [if_pos hp]
        exact ⟨Inv_initial, fun _ => ⟨rfl, by simp⟩⟩
      · rw [if_neg hp]
        obtain ⟨h1, h2⟩ := ih (decode m s [x]).2.1 hinv1
        refine ⟨h1, fun hpp => ⟨(h2 hpp).1, ?_⟩⟩
        have := (h2 hpp).2
        simp only [List.length_cons]
        omega

theorem decode_inv (m : Model) (src : List Nat) (s : DState) (hInv : Inv s) :
    Inv (decode m s src).2.1 :=
  (decode_run m src s hInv).1

theorem decode_consumes (m : Model) (src : List Nat) (s : DState) (hInv : Inv s)
    (hp : 0 < (decode m s src).1.1) :
    (decode m s src).2.2.length < src.length :=
  ((decode_run m src s hInv).2 hp).2

theorem decode_posts_initial (m : Model) (src : List Nat) (s : DState) (hInv : Inv s)
    (hp : 0 < (decode m s src).1.1) :
    (decode m s src).2.1 = initialState :=
  ((decode_run m src s hInv).2 hp).1

theorem driveChunk_nil (m : Model) (s : DState) (h : s.phase ≠ Phase.ReadyToPost) :
    driveChunk m s [] = (s, []) := by
  unfold driveChunk
  rw [decode_nil m s h]
  simp

theorem byteRun_inv (m : Model) : ∀ (src : List Nat) (s : DState), Inv s →
    Inv (byteRun m s src).1 := by
  intro src
  induction src with
  | nil => intro s hInv; exact hInv
  | cons x rest ih =>
    intro s hInv
    exact ih _ (decode_inv m [x] s hInv)

theorem byteRun_nil (m : Model) (s : DState) : byteRun m s [] = (s, []) := rfl

theorem byteRun_cons (m : Model) (s : DState) (x : Nat) (rest : List Nat) :
    byteRun m s (x :: rest) =
      ((byteRun m (decode m s [x]).2.1 rest).1,
       if 0 < (decode m s [x]).1.1 then
         (decode m s [x]).1 :: (byteRun m (decode m s [x]).2.1 rest).2
       else (byteRun m (decode m s [x]).2.1 rest).2) := rfl

theorem driveChunk_eq_byteRun (m : Model) : ∀ (src : List Nat) (s : DState), Inv s →
    driveChunk m s src = byteRun m s src := by
  intro src
  induction src with
  | nil =>
    intro s hInv
    rw [driveChunk_nil m s hInv.2.1, byteRun_nil]
  | cons x rest ih =>
    intro s hInv
    obtain ⟨hrem, hinv1, hinit⟩ := decode_one m s x hInv
    rw [byteRun_cons]
    by_cases hr : rest = []
    · subst hr
      rw [byteRun_nil]
      by_cases hp : 0 < (decode m s [x]).1.1
      · have hg : (decode m s [x]).2.2.length < ([x] : List Nat).length := by
          rw [hrem]
          simp
        unfold driveChunk
        rw [dif_pos ⟨hp, hg⟩, hrem,
            driveChunk_nil m _ (by rw [hinit hp]; exact Inv_initial.2.1)]
        simp [hp]
      · unfold driveChunk
        rw [dif_neg (by intro hcon; exact hp hcon.1)]
        simp [hp]
    · have hsplit := decode_cons m s x rest hInv hr
      by_cases hp : 0 < (decode m s [x]).1.1
      · rw [if_pos hp] at hsplit
        unfold driveChunk
        rw [dif_pos (show 0 < (decode m s (x :: rest)).1.1 ∧
              (decode m s (x :: rest)).2.2.length < (x :: rest).length by
            rw [hsplit]
            exact ⟨hp, by simp⟩)]
        rw [hsplit]
        simp only
        rw [ih initialState Inv_initial, hinit hp]
        simp [hp]
      · rw [if_neg hp] at hsplit
        have hdc : driveChunk m s (x :: rest) =
            driveChunk m (decode m s [x]).2.1 rest := by
          by_cases hp2 : 0 < (decode m (decode m s [x]).2.1 rest).1.1
          · have hlen := decode_consumes m rest _ hinv1 hp2
            unfold driveChunk
            rw [dif_pos (show 0 < (decode m s (x :: rest)).1.1 ∧
                  (decode m s (x :: rest)).2.2.length < (x :: rest).length by
                rw [hsplit]
                exact ⟨hp2, by simp only [List.length_cons]; omega⟩),
                dif_pos ⟨hp2, hlen⟩, hsplit]
          · unfold driveChunk
            rw [dif_neg (by rw [hsplit]; intro hcon; exact hp2 hcon.1),
                dif_neg (by intro hcon; exact hp2 hcon.1), hsplit]
        rw [hdc, ih _ hinv1]
        simp [hp]

theorem byteRun_append (m : Model) : ∀ (a b : List Nat) (s : DState),
    byteRun m s (a ++ b) =
      ((byteRun m (byteRun m s a).1 b).1,
       (byteRun m s a).2 ++ (byteRun m (byteRun m s a).1 b).2) := by
  intro a
  induction a with
  | nil => intro b s; rfl
  | cons x rest ih =>
    intro b s
    rw [List.cons_append, byteRun_cons, byteRun_cons, ih b (decode m s [x]).2.1]
    by_cases hp : 0 < (decode m s [x]).1.1 <;> simp [hp]

/-- Chunk-invariance, general form: driving the decoder over any list of
chunks is the same as driving it over their concatenation in a single
caller loop. -/
theorem driveChunks_eq (m : Model) : ∀ (chunks : List (List Nat)) (s : DState), Inv s →
    driveChunks m s chunks = driveChunk m s chunks.flatten := by
  intro chunks
  induction chunks with
  | nil =>
    intro s hInv
    rw [show ([] : List (List Nat)).flatten = [] from rfl, driveChunk_nil m s hInv.2.1]
    rfl
  | cons c cs ih =>
    intro s hInv
    have hInvc : Inv (byteRun m s c).1 := byteRun_inv m c s hInv
    rw [List.flatten_cons, driveChunk_eq_byteRun m (c ++ cs.flatten) s hInv,
        byteRun_append m c cs.flatten s]
    simp only [driveChunks]
    rw [driveChunk_eq_byteRun m c s hInv, ih (byteRun m s c).1 hInvc,
        driveChunk_eq_byteRun m cs.flatten _ hInvc]

theorem reachable_inv (m : Model) : ∀ s : DState, Reachable m s → Inv s := by
  intro s h
  induction h with
  | init => exact Inv_initial
  | step s' src _ ih => exact decode_inv m src s' ih

/-- C1: chunk-invariance — driving one decoder with a byte sequence split
into any list of consecutive chunks produces exactly the same final state and
the same sequence of completed `(count, Instruction)` pairs as driving it with
the whole sequence in a single caller loop; in particular single-byte calls
and whole-buffer calls agree, and all reconstructed multi-byte values agree. -/
theorem C1_chunk_invariance (m : Model) (chunks : List (List Nat)) :
    driveChunks m initialState chunks = driveChunk m initialState chunks.flatten :=
  driveChunks_eq m chunks initialState Inv_initial

/-- C2: evaluation at the failing input for the ModRM addressing claim — on
this code `mod == 0, rm == 6` (here `MOV AX, [...]`, bytes `0x8B 0x06`) is
decoded as an `Indirect` operand through `rm_table[6] = (index None, base BP)`
with zero trailing displacement bytes and the instruction completes after
2 bytes, instead of the claimed 2-byte absolute `DirectAddress` form. -/
theorem C2_mod0_rm6_behaviour :
    decode Model.i8086 initialState [0x8b, 0x06] =
      ((2, { Instruction.empty with
               operation := Operation.MOV, source := Source.Indirect,
               destination := Source.eAX,
               sib := { scale := 0, index := Source.None, base := Source.eBP },
               size := 2 }),
       initialState, []) ∧
    rm_table 6 = { scale := 0, index := Source.None, base := Source.eBP } := by
  decide

/-- C3 counterexample: feeding only the opcode byte `0xB8` yields
`count == 0`, not the claimed `-2` — the negative-requirement signal is only
produced by the displacement/operand block, which is skipped when the buffer
is already exhausted. -/
theorem C3_counterexample :
    (decode Model.i8086 initialState [0xb8]).1.1 = 0 ∧
    (decode Model.i8086 initialState [0xb8]).1.1 ≠ -2 := by
  decide

/-- C3 (amended): feeding only opcode `0xB8` yields `count == 0`; a
subsequent call with one of the two immediate bytes yields `-1`; a call with
both immediate bytes completes with `count == 3` (never a false completion);
and in general, a call that reaches the operand accumulator with `1 ≤ k`
bytes available out of `n > k` outstanding returns exactly `-(n - k)`. -/
theorem C3_amended :
    (decode Model.i8086 initialState [0xb8]).1.1 = 0 ∧
    (∀ b : Nat, (decode Model.i8086 afterB8 [b]).1.1 = -1) ∧
    (∀ b1 b2 : Nat, (decode Model.i8086 afterB8 [b1, b2]).1.1 = 3) ∧
    (∀ (m : Model) (s : DState) (src : List Nat),
      s.phase = Phase.DisplacementOrOperand → src ≠ [] →
      src.length < outstanding s →
      (decode m s src).1.1 = -(Int.ofNat (outstanding s - src.length))) := by
  refine ⟨by decide, fun b => rfl, fun b1 b2 => rfl, ?_⟩
  intro m s src h hne hlt
  rw [decode_at_disp m s src h, disp_short s src h hne hlt]
  rfl

/-- C3 witness: the general negative-count contract of `C3_amended` applied
at the concrete mid-instruction state after `0xB8` with one byte supplied. -/
theorem C3_witness :
    afterB8.phase = Phase.DisplacementOrOperand ∧
    ([0x34] : List Nat) ≠ [] ∧
    ([0x34] : List Nat).length < outstanding afterB8 ∧
    (decode Model.i8086 afterB8 [0x34]).1.1 =
      -(Int.ofNat (outstanding afterB8 - ([0x34] : List Nat).length)) :=
  ⟨by decide, by decide, by decide,
   C3_amended.2.2.2 Model.i8086 afterB8 [0x34] (by decide) (by decide) (by decide)⟩

/-- C4: after any `decode` call on a reachable state that returns a positive
count (a completed instruction or an `Undefined` rejection), the decoder state
is the fully cleared initial state, and decoding a plain `NOP` (`0x90`) next
yields a clean instruction with no stale `lock`, `segment_override` or
`repetition`. -/
theorem C4_reset (m : Model) (s : DState) (src : List Nat)
    (hr : Reachable m s) (hp : 0 < (decode m s src).1.1) :
    (decode m s src).2.1 = initialState ∧
    decode m (decode m s src).2.1 [0x90] =
      ((1, { Instruction.empty with operation := Operation.NOP }), initialState, []) := by
  have hInv := reachable_inv m s hr
  have h := decode_posts_initial m src s hInv hp
  refine ⟨h, ?_⟩
  rw [h]
  cases m <;> decide

/-- C4 witness: a `LOCK CS: REP`-prefixed `NOP` completes with count 4 and
carries its own prefixes, after which the next `NOP` is clean. -/
theorem C4_witness :
    Reachable Model.i8086 initialState ∧
    0 < (decode Model.i8086 initialState [0xf0, 0x2e, 0xf3, 0x90]).1.1 ∧
    ((decode Model.i8086 initialState [0xf0, 0x2e, 0xf3, 0x90]).2.1 = initialState ∧
     decode Model.i8086 (decode Model.i8086 initialState [0xf0, 0x2e, 0xf3, 0x90]).2.1 [0x90] =
       ((1, { Instruction.empty with operation := Operation.NOP }), initialState, [])) :=
  ⟨Reachable.init, by decide,
   C4_reset Model.i8086 initialState [0xf0, 0x2e, 0xf3, 0x90] Reachable.init (by decide)⟩

/-- C5: model gating of `PUSHA` (`0x60`) — `Undefined` with `count == 1` on
`Intel8086`, a valid `PUSHA` with `count == 1` on `Intel80186` and above. -/
theorem C5_model_gating :
    decode Model.i8086 initialState [0x60] = ((1, Instruction.empty), initialState, []) ∧
    decode Model.i80186 initialState [0x60] =
      ((1, { Instruction.empty with operation := Operation.PUSHA, size := 2 }),
       initialState, []) ∧
    decode Model.i80286 initialState [0x60] =
      ((1, { Instruction.empty with operation := Operation.PUSHA, size := 2 }),
       initialState, []) ∧
    decode Model.i80386 initialState [0x60] =
      ((1, { Instruction.empty with operation := Operation.PUSHA, size := 2 }),
       initialState, []) := by
  decide

set_option maxRecDepth 8000 in
/-- C6: immediate sign-extension — `0x83 /5` (register-direct `AX`) with any
one-byte immediate decodes to `SUB AX, imm` with the immediate sign-extended
to 16 bits (`0xFF` becomes `0xFFFF`), and in the operand accumulator every
1-byte immediate feeding a 2-byte operation other than `IN`/`OUT` is
sign-extended. -/
theorem C6_sign_extension :
    (∀ b : Nat, b < 256 →
      decode Model.i8086 initialState [0x83, 0xe8, b] =
        ((3, { Instruction.empty with
                 operation := Operation.SUB, source := Source.Immediate,
                 destination := Source.eAX, size := 2,
                 operand := if b &&& 0x80 ≠ 0 then b ||| 0xff00 else b }),
         initialState, [])) ∧
    (decode Model.i8086 initialState [0x83, 0xe8, 0xff]).1.2.operand = 0xffff ∧
    (∀ s : DState, s.operand_size = 1 → s.operation_size = 2 →
      s.operation ≠ Operation.IN → s.operation ≠ Operation.OUT →
      (finishOperands s).operand =
        (if (s.inward_data >>> 56) &&& 0x80 ≠ 0
         then (s.inward_data >>> 56) ||| 0xff00 else s.inward_data >>> 56)) := by
  refine ⟨by decide, by decide, ?_⟩
  intro s h1 h2 h3 h4
  simp only [finishOperands, h1, signExtendByteOperand, h2, h3, h4]
  split <;> simp [signExtendByteOperand, h2, h3, h4]

/-- C6 witness: the sign-extension theorem applied at immediate `0xFF`. -/
theorem C6_witness :
    (0xff : Nat) < 256 ∧
    decode Model.i8086 initialState [0x83, 0xe8, 0xff] =
      ((3, { Instruction.empty with
               operation := Operation.SUB, source := Source.Immediate,
               destination := Source.eAX, size := 2,
               operand := if (0xff : Nat) &&& 0x80 ≠ 0 then (0xff : Nat) ||| 0xff00
                          else (0xff : Nat) }),
       initialState, []) :=
  ⟨by decide, C6_sign_extension.1 0xff (by decide)⟩

/-- C7 counterexample: for the two-byte group opcode `0x0F 0x00` the claim
predicts a rejection whose count covers the bytes up to and including the
ModRM byte (3), but the code rejects at the second opcode byte with count 2
and leaves the would-be ModRM byte unconsumed. -/
theorem C7_counterexample :
    decode Model.i80286 initialState [0x0f, 0x00, 0x30] =
      ((2, Instruction.empty), initialState, [0x30]) := by
  decide

set_option maxRecDepth 8000 in
/-- C7 (amended): for the single-byte group opcodes (`0xF6`/`0xF7` with
`reg == 1`, `0xD0`-`0xD3` with `reg == 1`, `0xFE` with `reg ≥ 2`, `0xFF` with
`reg == 7`, `0x8F` with `reg ≠ 0`), any `mod`/`rm` combination with an
unassigned `reg` rejects the whole instruction with `count == 2` (opcode plus
ModRM byte), an `Undefined` operation and a reset decoder; opcodes of the
`0x0F` page never reach group decoding at all — every second byte is rejected
with `count == 2` because the page-F `switch` tests `0x0f00 | byte` against
case labels `0x00`-`0x06`. -/
theorem C7_amended :
    (∀ mod : Nat, mod < 4 → ∀ rm : Nat, rm < 8 →
      decode Model.i8086 initialState [0xf6, modrmByte mod 1 rm] =
        ((2, Instruction.empty), initialState, [])) ∧
    (∀ mod : Nat, mod < 4 → ∀ rm : Nat, rm < 8 →
      decode Model.i8086 initialState [0xf7, modrmByte mod 1 rm] =
        ((2, Instruction.empty), initialState, [])) ∧
    (∀ mod : Nat, mod < 4 → ∀ rm : Nat, rm < 8 →
      decode Model.i8086 initialState [0xd0, modrmByte mod 1 rm] =
        ((2, Instruction.empty), initialState, [])) ∧
    (∀ mod : Nat, mod < 4 → ∀ rm : Nat, rm < 8 →
      decode Model.i8086 initialState [0xd1, modrmByte mod 1 rm] =
        ((2, Instruction.empty), initialState, [])) ∧
    (∀ mod : Nat, mod < 4 → ∀ rm : Nat, rm < 8 →
      decode Model.i8086 initialState [0xd2, modrmByte mod 1 rm] =
        ((2, Instruction.empty), initialState, [])) ∧
    (∀ mod : Nat, mod < 4 → ∀ rm : Nat, rm < 8 →
      decode Model.i8086 initialState [0xd3, modrmByte mod 1 rm] =
        ((2, Instruction.empty), initialState, [])) ∧
    (∀ mod : Nat, mod < 4 → ∀ rm : Nat, rm < 8 →
      decode Model.i8086 initialState [0xff, modrmByte mod 7 rm] =
        ((2, Instruction.empty), initialState, [])) ∧
    (∀ mod : Nat, mod < 4 → ∀ rm : Nat, rm < 8 → ∀ reg : Nat, 2 ≤ reg → reg < 8 →
      decode Model.i8086 initialState [0xfe, modrmByte mod reg rm] =
        ((2, Instruction.empty), initialState, [])) ∧
    (∀ mod : Nat, mod < 4 → ∀ rm : Nat, rm < 8 → ∀ reg : Nat, 1 ≤ reg → reg < 8 →
      decode Model.i8086 initialState [0x8f, modrmByte mod reg rm] =
        ((2, Instruction.empty), initialState, [])) ∧
    (∀ b : Nat, b < 256 →
      decode Model.i80286 initialState [0x0f, b] =
        ((2, Instruction.empty), initialState, [])) := by
  refine ⟨by decide, by decide, by decide, by decide, by decide, by decide, by decide,
    by decide, by decide, by decide⟩

/-- C7 witness: the amended group-rejection theorem applied at
`0xF6 /1` with a register-direct ModRM byte. -/
theorem C7_witness :
    (3 : Nat) < 4 ∧ (0 : Nat) < 8 ∧
    decode Model.i8086 initialState [0xf6, modrmByte 3 1 0] =
      ((2, Instruction.empty), initialState, []) :=
  ⟨by decide, by decide, C7_amended.1 3 (by decide) 0 (by decide)⟩

/-- C8: resumable prefix accumulation — `0xF3` alone yields `count == 0`,
and a subsequent call with `0xAA` (`STOS` byte) completes with total
`count == 2` and `repetition == RepE` (repeat-while-equal), the prefix having
been retained across the call boundary. -/
theorem C8_resumable_prefix :
    (decode Model.i8086 initialState [0xf3]).1.1 = 0 ∧
    decode Model.i8086 (decode Model.i8086 initialState [0xf3]).2.1 [0xaa] =
      ((2, { Instruction.empty with
               operation := Operation.STOS,
               repetition := Repetition.RepE, size := 1 }),
       initialState, []) := by
  decide

/-- C9: evaluation at the failing input for the LOADALL claim — `0x0F 0x05`
is `Undefined` with `count == 2` even on `Intel80286` (as well as on
`Intel80386`), because the page-F `switch` scrutinises
`instr_ = 0x0f00 | byte`, which can never match its `0x00`-`0x06` case
labels; on pre-286 models `0x0F` itself is rejected with `count == 1`. -/
theorem C9_loadall_dead :
    decode Model.i80286 initialState [0x0f, 0x05] =
      ((2, Instruction.empty), initialState, []) ∧
    decode Model.i80386 initialState [0x0f, 0x05] =
      ((2, Instruction.empty), initialState, []) ∧
    decode Model.i8086 initialState [0x0f] = ((1, Instruction.empty), initialState, []) ∧
    decode Model.i80186 initialState [0x0f] = ((1, Instruction.empty), initialState, []) := by
  decide

/-- C10: the `ScaleIndexBase` phase is unreachable — every state reachable
from the initial state through `decode` calls has one of the four phases
`Instruction`, `InstructionPageF`, `ModRegRM`, `DisplacementOrOperand`
(hence also never `ScaleIndexBase`), so the SIB block is dead code: on every
reachable state it consumes nothing. -/
theorem C10_no_sib (m : Model) (s : DState) (hr : Reachable m s) :
    s.phase ≠ Phase.ScaleIndexBase ∧
    (s.phase = Phase.Instruction ∨ s.phase = Phase.InstructionPageF ∨
     s.phase = Phase.ModRegRM ∨ s.phase = Phase.DisplacementOrOperand) ∧
    (∀ src : List Nat, sibPhase s src = (s, src)) := by
  obtain ⟨h1, h2, -, -⟩ := reachable_inv m s hr
  refine ⟨h1, ?_, fun src => sib_pass s src h1⟩
  cases h : s.phase <;> simp_all

/-- C10 witness: the phase-reachability theorem applied at the initial
state. -/
theorem C10_witness :
    Reachable Model.i8086 initialState ∧
    (initialState.phase ≠ Phase.ScaleIndexBase ∧
     (initialState.phase = Phase.Instruction ∨
      initialState.phase = Phase.InstructionPageF ∨
      initialState.phase = Phase.ModRegRM ∨
      initialState.phase = Phase.DisplacementOrOperand) ∧
     (∀ src : List Nat, sibPhase initialState src = (initialState, src))) :=
  ⟨Reachable.init, C10_no_sib Model.i8086 initialState Reachable.init⟩

end x86

end InstructionSet
